import Mathlib

/-!
Shallow embedding of the mock Osmosis AMM module of the osmosis-labs/bindings
repository: the `Pool` model, multi-hop router (`complex_swap`), the
`OsmosisMsg::Swap` command handler and the `OsmosisQuery::EstimateSwap` query
from `packages/bindings-test/src/multitest.rs`, together with the message
types of `packages/bindings/src/types.rs`.

Modelling conventions:
* `Uint128` values are `Nat` with explicit range checks: every arithmetic
  operation of `cosmwasm_std::Uint128` panics on overflow or underflow, so
  each is embedded as a function into `Outcome Nat` whose `panic` constructor
  records the panic cause (`addOverflow`, `subOverflow`, `mulOverflow`,
  `divByZero`, and `wrongVariant` for the `SwapAmount::as_in/as_out`
  accessors).
* `cosmwasm_std::Decimal` is an 18-decimal fixed-point number: a `Nat` of
  atomics with denominator `10 ^ 18`.  `Uint128 * Decimal` is
  `multiply_ratio(atomics, 10^18)` (truncated division over a 256-bit
  intermediate, overflow-checked on the result), `Decimal::from_ratio(a, b)`
  is `a.multiply_ratio(10^18, b)` packed into atomics, and `Decimal`
  subtraction is checked subtraction of atomics.
* The `cw_storage_plus::Map<u64, Pool>` storage is an association list;
  `load` of an absent key returns the `StdError::NotFound` error (constructor
  `OsmosisError.notFound`), `save` overwrites.  The `&mut dyn Storage`
  threading of the command handler is explicit state passing.
-/

namespace OsmoBindings

/-- Modulus of `Uint128` arithmetic: operations panic at `2 ^ 128`. -/
def U128MOD : Nat := 2 ^ 128

/-- `Decimal::DECIMAL_FRACTIONAL = 10^18`, the fixed-point denominator. -/
def DEC : Nat := 10 ^ 18

/-- Causes of runtime panics in the embedded code. -/
inductive PanicKind where
  | addOverflow
  | subOverflow
  | mulOverflow
  | divByZero
  | wrongVariant
deriving DecidableEq, Repr

/-- Errors crossing `complex_swap` and the module handlers: the
`OsmosisError` enum of multitest.rs plus the `StdError::NotFound` produced by
`POOLS.load` on a missing key (both travel through `anyhow::Result`). -/
inductive OsmosisError where
  | notFound (key : Nat)
  | assetNotInPool
  | priceTooLow
  | unimplemented
deriving DecidableEq, Repr

/-- Result of running embedded Rust code: a value, a returned error, or a
panic. -/
inductive Outcome (α : Type) where
  | ok (a : α)
  | err (e : OsmosisError)
  | panic (k : PanicKind)
deriving DecidableEq, Repr

def Outcome.bind {α β : Type} : Outcome α → (α → Outcome β) → Outcome β
  | .ok a, f => f a
  | .err e, _ => .err e
  | .panic k, _ => .panic k

def Outcome.map {α β : Type} (f : α → β) : Outcome α → Outcome β
  | .ok a => .ok (f a)
  | .err e => .err e
  | .panic k => .panic k

/-- `Uint128` addition (panics on overflow). -/
def uAdd (a b : Nat) : Outcome Nat :=
  if a + b < U128MOD then .ok (a + b) else .panic .addOverflow

/-- `Uint128` subtraction (panics on underflow). -/
def uSub (a b : Nat) : Outcome Nat :=
  if b ≤ a then .ok (a - b) else .panic .subOverflow

/-- `Uint128` multiplication (panics on overflow). -/
def uMul (a b : Nat) : Outcome Nat :=
  if a * b < U128MOD then .ok (a * b) else .panic .mulOverflow

/-- `Uint128` division (truncating; panics on division by zero). -/
def uDiv (a b : Nat) : Outcome Nat :=
  if b = 0 then .panic .divByZero else .ok (a / b)

/-- `Uint128::multiply_ratio(a, num, den)`: `a * num / den` over a 256-bit
intermediate, truncated, panicking on a zero denominator and when the result
does not fit `Uint128`. -/
def uMulDiv (a num den : Nat) : Outcome Nat :=
  if den = 0 then .panic .divByZero
  else if a * num / den < U128MOD then .ok (a * num / den)
  else .panic .mulOverflow

/-- `cosmwasm_std::Decimal`: `atomics / 10^18`. -/
structure Decimal where
  atomics : Nat
deriving DecidableEq, Repr

/-- `Decimal::one()`. -/
def decOne : Decimal := ⟨DEC⟩

/-- `Decimal::permille(x)`. -/
def decPermille (x : Nat) : Decimal := ⟨x * 10 ^ 15⟩

/-- `Decimal` subtraction: checked subtraction of atomics. -/
def decSub (a b : Decimal) : Outcome Decimal :=
  Outcome.bind (uSub a.atomics b.atomics) fun x => .ok ⟨x⟩

/-- `Uint128 * Decimal` (`u.multiply_ratio(d.numerator(), d.denominator())`,
truncating). -/
def mulUintDec (u : Nat) (d : Decimal) : Outcome Nat :=
  uMulDiv u d.atomics DEC

/-- `Decimal::from_ratio(num, den)` (panics on `den = 0` and on overflow). -/
def decFromRatio (num den : Nat) : Outcome Decimal :=
  Outcome.bind (uMulDiv num DEC den) fun x => .ok ⟨x⟩

/-- `cosmwasm_std::Coin`. -/
structure Coin where
  denom : String
  amount : Nat
deriving DecidableEq, Repr

/-- `SwapAmount` of `packages/bindings/src/types.rs`. -/
inductive SwapAmount where
  | In (x : Nat)
  | Out (x : Nat)
deriving DecidableEq, Repr

/-- `SwapAmount::as_in` — panics (`"was output"`) on the wrong variant. -/
def SwapAmount.as_in : SwapAmount → Outcome Nat
  | .In x => .ok x
  | .Out _ => .panic .wrongVariant

/-- `SwapAmount::as_out` — panics (`"was input"`) on the wrong variant. -/
def SwapAmount.as_out : SwapAmount → Outcome Nat
  | .Out x => .ok x
  | .In _ => .panic .wrongVariant

def SwapAmount.isOut : SwapAmount → Bool
  | .Out _ => true
  | .In _ => false

def SwapAmount.isIn : SwapAmount → Bool
  | .In _ => true
  | .Out _ => false

/-- `SwapAmountWithLimit` of types.rs. -/
inductive SwapAmountWithLimit where
  | ExactIn (input min_output : Nat)
  | ExactOut (output max_input : Nat)
deriving DecidableEq, Repr

/-- `SwapAmountWithLimit::discard_limit`. -/
def SwapAmountWithLimit.discard_limit : SwapAmountWithLimit → SwapAmount
  | .ExactIn input _ => .In input
  | .ExactOut output _ => .Out output

/-- `Swap` of types.rs: one fully-specified hop. -/
structure Swap where
  pool_id : Nat
  denom_in : String
  denom_out : String
deriving DecidableEq, Repr

/-- `Step` of types.rs: a continuation hop. -/
structure Step where
  pool_id : Nat
  denom_out : String
deriving DecidableEq, Repr

/-- `Pool` of multitest.rs. -/
structure Pool where
  assets : List Coin
  shares : Nat
  fee : Decimal
deriving DecidableEq, Repr

/-- `Pool::new(a, b)`: equal-weighted pool with 0.3% fee; `shares` is the
integer square root (`Isqrt`) of the product of the seed amounts.  The
product is a `Uint128` multiplication, hence overflow-checked. -/
def Pool.new (a b : Coin) : Outcome Pool :=
  Outcome.bind (uMul a.amount b.amount) fun prod =>
  .ok { assets := [a, b], shares := Nat.sqrt prod, fee := decPermille 3 }

/-- `Pool::has_denom`. -/
def Pool.has_denom (p : Pool) (denom : String) : Bool :=
  p.assets.any fun c => c.denom == denom

/-- `Pool::get_amount`: amount of the first asset with the given denom. -/
def Pool.get_amount (p : Pool) (denom : String) : Option Nat :=
  (p.assets.find? fun c => c.denom == denom).map Coin.amount

/-- Replace the amount at the first position whose denom matches;
`none` when the denom is absent. -/
def setAmountList : List Coin → String → Nat → Option (List Coin)
  | [], _, _ => none
  | c :: rest, denom, amount =>
    if c.denom == denom then some ({ c with amount := amount } :: rest)
    else (setAmountList rest denom amount).map (c :: ·)

/-- `Pool::set_amount`: fails with `AssetNotInPool` when the denom is absent. -/
def Pool.set_amount (p : Pool) (denom : String) (amount : Nat) : Outcome Pool :=
  match setAmountList p.assets denom amount with
  | some l => .ok { p with assets := l }
  | none => .err .assetNotInPool

/-- `Pool::spot_price`: `Decimal::from_ratio(bal_out * mult, bal_in)` where
`mult` is `1 - fee` when `with_swap_fee` and `1` otherwise; fails with
`AssetNotInPool` when either denom is absent. -/
def Pool.spot_price (p : Pool) (denom_in denom_out : String)
    (with_swap_fee : Bool) : Outcome Decimal :=
  match p.get_amount denom_in, p.get_amount denom_out with
  | some bal_in, some bal_out =>
    Outcome.bind (if with_swap_fee then decSub decOne p.fee else .ok decOne) fun mult =>
    Outcome.bind (mulUintDec bal_out mult) fun num =>
    decFromRatio num bal_in
  | _, _ => .err .assetNotInPool

/-- Balance arithmetic of the `SwapAmount::In` branch of `Pool::swap`, in the
exact source evaluation order. Returns `(final_in, final_out, payout)`. -/
def swapCalcIn (fee : Decimal) (bal_in bal_out input : Nat) :
    Outcome (Nat × Nat × SwapAmount) :=
  Outcome.bind (decSub decOne fee) fun mult =>
  Outcome.bind (mulUintDec input mult) fun input_minus_fee =>
  Outcome.bind (uMul bal_in bal_out) fun num =>
  Outcome.bind (uAdd bal_in input_minus_fee) fun den =>
  Outcome.bind (uDiv num den) fun final_out =>
  Outcome.bind (uSub bal_out final_out) fun payout =>
  Outcome.bind (uAdd bal_in input) fun final_in =>
  .ok (final_in, final_out, .Out payout)

/-- Balance arithmetic of the `SwapAmount::Out` branch of `Pool::swap`, in
the exact source evaluation order
(`pay_incl_fee = (in_without_fee - bal_in) * mult.denominator() /
mult.numerator() + 1`). -/
def swapCalcOut (fee : Decimal) (bal_in bal_out output : Nat) :
    Outcome (Nat × Nat × SwapAmount) :=
  Outcome.bind (uMul bal_in bal_out) fun num =>
  Outcome.bind (uSub bal_out output) fun den =>
  Outcome.bind (uDiv num den) fun in_without_fee =>
  Outcome.bind (decSub decOne fee) fun mult =>
  Outcome.bind (uSub in_without_fee bal_in) fun diff =>
  Outcome.bind (uMul diff DEC) fun prod =>
  Outcome.bind (uDiv prod mult.atomics) fun q =>
  Outcome.bind (uAdd q 1) fun pay_incl_fee =>
  Outcome.bind (uAdd bal_in pay_incl_fee) fun final_in =>
  Outcome.bind (uSub bal_out output) fun final_out =>
  .ok (final_in, final_out, .In pay_incl_fee)

def swapCalc (fee : Decimal) (bal_in bal_out : Nat) :
    SwapAmount → Outcome (Nat × Nat × SwapAmount)
  | .In input => swapCalcIn fee bal_in bal_out input
  | .Out output => swapCalcOut fee bal_in bal_out output

/-- `Pool::swap`: requires both denoms present, runs the constant-product
calculation for the requested side, then writes both final balances back with
`set_amount` (first `denom_in`, then `denom_out`). -/
def Pool.swap (p : Pool) (denom_in denom_out : String) (amount : SwapAmount) :
    Outcome (SwapAmount × Pool) :=
  match p.get_amount denom_in, p.get_amount denom_out with
  | some bal_in, some bal_out =>
    Outcome.bind (swapCalc p.fee bal_in bal_out amount) fun r =>
    Outcome.bind (p.set_amount denom_in r.1) fun p1 =>
    Outcome.bind (p1.set_amount denom_out r.2.1) fun p2 =>
    .ok (r.2.2, p2)
  | _, _ => .err .assetNotInPool

/-- The `POOLS: Map<u64, Pool>` storage, as an association list. -/
abbrev PoolStore := List (Nat × Pool)

/-- `POOLS.load(storage, id)`: `StdError::NotFound` when the key is absent. -/
def loadPool (s : PoolStore) (id : Nat) : Outcome Pool :=
  match s.lookup id with
  | some p => .ok p
  | none => .err (.notFound id)

/-- `POOLS.save(storage, id, pool)`: overwrite the binding for `id`, or
append it when absent. -/
def savePool : PoolStore → Nat → Pool → PoolStore
  | [], id, p => [(id, p)]
  | (k, q) :: rest, id, p =>
    if k = id then (k, p) :: rest else (k, q) :: savePool rest id p

/-- The save loop of the `Swap` handler: write back every collected snapshot
in order. -/
def saveAll (s : PoolStore) (pools : List (Nat × Pool)) : PoolStore :=
  pools.foldl (fun acc kv => savePool acc kv.1 kv.2) s

/-- Continuation hops of the hop list of `complex_swap`: each `Step`
contributes a `Swap` whose `denom_in` is the previous hop's `denom_out`
(the `tuple_windows` pairing of multitest.rs lines 209-220). -/
def routeSwaps : String → List Step → List Swap
  | _, [] => []
  | prev_out, st :: rest =>
    { pool_id := st.pool_id, denom_in := prev_out, denom_out := st.denom_out }
      :: routeSwaps st.denom_out rest

/-- The ordered hop list of `complex_swap`: the first hop as given, then one
fully-specified `Swap` per `Step`. -/
def buildSwaps (first : Swap) (route : List Step) : List Swap :=
  first :: routeSwaps first.denom_out route

/-- The `SwapAmount::In` loop of `complex_swap`: traverse the hops forward,
loading every pool from the (immutable) storage, collecting each updated
snapshot, and feeding each payout (via `as_out`) into the next hop. -/
def complexSwapIn (storage : PoolStore) :
    List Swap → Nat → List (Nat × Pool) → Outcome (Nat × List (Nat × Pool))
  | [], input, acc => .ok (input, acc)
  | sw :: rest, input, acc =>
    Outcome.bind (loadPool storage sw.pool_id) fun pool =>
    Outcome.bind (pool.swap sw.denom_in sw.denom_out (.In input)) fun r =>
    Outcome.bind r.1.as_out fun out =>
    complexSwapIn storage rest out (acc ++ [(sw.pool_id, r.2)])

/-- The `SwapAmount::Out` loop of `complex_swap`: traverse the hops in
reverse (the list passed here is already reversed), feeding each required
pay-in (via `as_in`) into the preceding hop. -/
def complexSwapOut (storage : PoolStore) :
    List Swap → Nat → List (Nat × Pool) → Outcome (Nat × List (Nat × Pool))
  | [], output, acc => .ok (output, acc)
  | sw :: rest, output, acc =>
    Outcome.bind (loadPool storage sw.pool_id) fun pool =>
    Outcome.bind (pool.swap sw.denom_in sw.denom_out (.Out output)) fun r =>
    Outcome.bind r.1.as_in fun inp =>
    complexSwapOut storage rest inp (acc ++ [(sw.pool_id, r.2)])

/-- `complex_swap` of multitest.rs: resolve the hop list and run it in the
direction fitting the exact side, returning the final opposite-side amount
and the collected pool snapshots.  The storage is read-only here. -/
def complex_swap (storage : PoolStore) (first : Swap) (route : List Step)
    (amount : SwapAmount) : Outcome (SwapAmount × List (Nat × Pool)) :=
  let swaps := buildSwaps first route
  match amount with
  | .In input =>
    Outcome.map (fun r : Nat × List (Nat × Pool) => (SwapAmount.Out r.1, r.2))
      (complexSwapIn storage swaps input [])
  | .Out output =>
    Outcome.map (fun r : Nat × List (Nat × Pool) => (SwapAmount.In r.1, r.2))
      (complexSwapOut storage swaps.reverse output [])

/-- The slippage check of the `OsmosisMsg::Swap` handler (multitest.rs lines
328-339), using the panicking accessors exactly as the source does. -/
def checkLimit (amount : SwapAmountWithLimit) (swap_result : SwapAmount) :
    Outcome Unit :=
  match amount with
  | .ExactIn _ min_output =>
    Outcome.bind swap_result.as_out fun o =>
    if o < min_output then .err .priceTooLow else .ok ()
  | .ExactOut _ max_input =>
    Outcome.bind swap_result.as_in fun i =>
    if max_input < i then .err .priceTooLow else .ok ()

/-- The response amount of the `Swap` handler: `Out(get_out)` for `ExactIn`,
`In(pay_in)` for `ExactOut` (multitest.rs lines 345-367). -/
def responseAmount (amount : SwapAmountWithLimit) (swap_result : SwapAmount) :
    Outcome SwapAmount :=
  match amount with
  | .ExactIn _ _ => Outcome.map SwapAmount.Out swap_result.as_out
  | .ExactOut _ _ => Outcome.map SwapAmount.In swap_result.as_in

/-- The `OsmosisMsg::Swap` arm of `OsmosisModule::execute`, with the mutable
storage threaded explicitly: route with the limit discarded, enforce the
slippage bound, and only then save every collected snapshot.  The bank
burn/mint side effects are collaborator-owned and outside the pool model.
Returns the (possibly updated) storage and the outcome. -/
def executeSwapMsg (storage : PoolStore) (first : Swap) (route : List Step)
    (amount : SwapAmountWithLimit) : PoolStore × Outcome SwapAmount :=
  match complex_swap storage first route amount.discard_limit with
  | .err e => (storage, .err e)
  | .panic k => (storage, .panic k)
  | .ok (swap_result, updated_pools) =>
    match checkLimit amount swap_result with
    | .err e => (storage, .err e)
    | .panic k => (storage, .panic k)
    | .ok _ =>
      let storage' := saveAll storage updated_pools
      match responseAmount amount swap_result with
      | .ok resp => (storage', .ok resp)
      | .err e => (storage', .err e)
      | .panic k => (storage', .panic k)

/-- The `OsmosisQuery::EstimateSwap` arm of `OsmosisModule::query`: run
`complex_swap` on the read-only storage and discard the collected pool
snapshots. -/
def queryEstimateSwap (storage : PoolStore) (first : Swap) (route : List Step)
    (amount : SwapAmount) : Outcome SwapAmount :=
  Outcome.map Prod.fst (complex_swap storage first route amount)

/-- Ceiling division on `Nat`, used to state the rounding claims. -/
def cdivNat (a b : Nat) : Nat := (a + b - 1) / b

/-- Whether an outcome is a panic (used to state panic claims). -/
def Outcome.isPanic {α : Type} : Outcome α → Bool
  | .panic _ => true
  | _ => false

/-- The slippage-bound violation condition as the specification states it:
for `ExactIn` the final `Out` amount is below `min_output`, for `ExactOut`
the final `In` amount exceeds `max_input`. -/
def limitViolated (amount : SwapAmountWithLimit) (res : SwapAmount) : Bool :=
  match amount, res with
  | .ExactIn _ min_output, .Out o => decide (o < min_output)
  | .ExactOut _ max_input, .In i => decide (max_input < i)
  | _, _ => false

/-! ## Basic lemmas about `Outcome` and the checked arithmetic -/

@[simp] theorem Outcome.bind_ok_left {α β : Type} (a : α) (f : α → Outcome β) :
    Outcome.bind (.ok a) f = f a := rfl

@[simp] theorem Outcome.bind_err_left {α β : Type} (e : OsmosisError) (f : α → Outcome β) :
    Outcome.bind (.err e) f = .err e := rfl

@[simp] theorem Outcome.bind_panic_left {α β : Type} (k : PanicKind) (f : α → Outcome β) :
    Outcome.bind (.panic k) f = .panic k := rfl

@[simp] theorem Outcome.map_ok {α β : Type} (f : α → β) (a : α) :
    Outcome.map f (.ok a) = .ok (f a) := rfl

@[simp] theorem Outcome.map_err {α β : Type} (f : α → β) (e : OsmosisError) :
    Outcome.map f (.err e) = .err e := rfl

@[simp] theorem Outcome.map_panic {α β : Type} (f : α → β) (k : PanicKind) :
    Outcome.map f (.panic k) = .panic k := rfl

theorem Outcome.bind_eq_ok {α β : Type} {x : Outcome α} {f : α → Outcome β} {b : β}
    (h : Outcome.bind x f = .ok b) : ∃ a, x = .ok a ∧ f a = .ok b := by
  cases x with
  | ok a => exact ⟨a, rfl, h⟩
  | err e => simp [Outcome.bind] at h
  | panic k => simp [Outcome.bind] at h

theorem Outcome.bind_eq_err {α β : Type} {x : Outcome α} {f : α → Outcome β} {e : OsmosisError}
    (h : Outcome.bind x f = .err e) : x = .err e ∨ ∃ a, x = .ok a ∧ f a = .err e := by
  cases x with
  | ok a => exact .inr ⟨a, rfl, h⟩
  | err e' => simp [Outcome.bind] at h; simp [h]
  | panic k => simp [Outcome.bind] at h

theorem Outcome.bind_eq_panic {α β : Type} {x : Outcome α} {f : α → Outcome β} {k : PanicKind}
    (h : Outcome.bind x f = .panic k) : x = .panic k ∨ ∃ a, x = .ok a ∧ f a = .panic k := by
  cases x with
  | ok a => exact .inr ⟨a, rfl, h⟩
  | err e => simp [Outcome.bind] at h
  | panic k' => simp [Outcome.bind] at h; simp [h]

theorem uAdd_ok {a b c : Nat} (h : uAdd a b = .ok c) : c = a + b ∧ a + b < U128MOD := by
  unfold uAdd at h; split at h <;> simp_all

theorem uSub_ok {a b c : Nat} (h : uSub a b = .ok c) : c = a - b ∧ b ≤ a := by
  unfold uSub at h; split at h <;> simp_all

theorem uMul_ok {a b c : Nat} (h : uMul a b = .ok c) : c = a * b ∧ a * b < U128MOD := by
  unfold uMul at h; split at h <;> simp_all

theorem uDiv_ok {a b c : Nat} (h : uDiv a b = .ok c) : c = a / b ∧ b ≠ 0 := by
  unfold uDiv at h; split at h <;> simp_all

theorem uMulDiv_ok {a n d c : Nat} (h : uMulDiv a n d = .ok c) :
    c = a * n / d ∧ d ≠ 0 := by
  unfold uMulDiv at h; split at h
  · simp_all
  · split at h <;> simp_all

theorem decSub_ok {a b : Decimal} {m : Decimal} (h : decSub a b = .ok m) :
    m.atomics = a.atomics - b.atomics ∧ b.atomics ≤ a.atomics := by
  unfold decSub at h
  obtain ⟨x, hx, h⟩ := Outcome.bind_eq_ok h
  obtain ⟨rfl, hle⟩ := uSub_ok hx
  cases h; exact ⟨rfl, hle⟩

theorem uAdd_ne_err {a b : Nat} {e : OsmosisError} : uAdd a b ≠ .err e := by
  unfold uAdd; split <;> simp

theorem uSub_ne_err {a b : Nat} {e : OsmosisError} : uSub a b ≠ .err e := by
  unfold uSub; split <;> simp

theorem uMul_ne_err {a b : Nat} {e : OsmosisError} : uMul a b ≠ .err e := by
  unfold uMul; split <;> simp

theorem uDiv_ne_err {a b : Nat} {e : OsmosisError} : uDiv a b ≠ .err e := by
  unfold uDiv; split <;> simp

theorem uMulDiv_ne_err {a n d : Nat} {e : OsmosisError} : uMulDiv a n d ≠ .err e := by
  unfold uMulDiv; split
  · simp
  · split <;> simp

theorem decSub_ne_err {a b : Decimal} {e : OsmosisError} : decSub a b ≠ .err e := by
  unfold decSub
  intro h
  rcases Outcome.bind_eq_err h with h' | ⟨x, _, h'⟩
  · exact uSub_ne_err h'
  · simp at h'

theorem uAdd_ne_wv {a b : Nat} : uAdd a b ≠ .panic .wrongVariant := by
  unfold uAdd; split <;> simp

theorem uSub_ne_wv {a b : Nat} : uSub a b ≠ .panic .wrongVariant := by
  unfold uSub; split <;> simp

theorem uMul_ne_wv {a b : Nat} : uMul a b ≠ .panic .wrongVariant := by
  unfold uMul; split <;> simp

theorem uDiv_ne_wv {a b : Nat} : uDiv a b ≠ .panic .wrongVariant := by
  unfold uDiv; split <;> simp

theorem uMulDiv_ne_wv {a n d : Nat} : uMulDiv a n d ≠ .panic .wrongVariant := by
  unfold uMulDiv; split
  · simp
  · split <;> simp

theorem decSub_ne_wv {a b : Decimal} : decSub a b ≠ .panic .wrongVariant := by
  unfold decSub
  intro h
  rcases Outcome.bind_eq_panic h with h' | ⟨x, _, h'⟩
  · exact uSub_ne_wv h'
  · simp at h'

/-! ## Characterization of the swap balance arithmetic -/

theorem swapCalcIn_ok {fee : Decimal} {bi bo input fi fo : Nat} {pay : SwapAmount}
    (h : swapCalcIn fee bi bo input = .ok (fi, fo, pay)) :
    fee.atomics ≤ DEC ∧
      bi + input * (DEC - fee.atomics) / DEC ≠ 0 ∧
      fo = bi * bo / (bi + input * (DEC - fee.atomics) / DEC) ∧
      pay = .Out (bo - fo) ∧ fi = bi + input := by
  unfold swapCalcIn at h
  obtain ⟨mult, hmult, h⟩ := Outcome.bind_eq_ok h
  obtain ⟨imf, himf, h⟩ := Outcome.bind_eq_ok h
  obtain ⟨num, hnum, h⟩ := Outcome.bind_eq_ok h
  obtain ⟨den, hden, h⟩ := Outcome.bind_eq_ok h
  obtain ⟨fo', hfo, h⟩ := Outcome.bind_eq_ok h
  obtain ⟨po, hpo, h⟩ := Outcome.bind_eq_ok h
  obtain ⟨fi', hfi, h⟩ := Outcome.bind_eq_ok h
  obtain ⟨hm, hmle⟩ := decSub_ok hmult
  obtain ⟨rfl, _⟩ := uMulDiv_ok himf
  obtain ⟨rfl, _⟩ := uMul_ok hnum
  obtain ⟨rfl, _⟩ := uAdd_ok hden
  obtain ⟨rfl, hne⟩ := uDiv_ok hfo
  obtain ⟨rfl, _⟩ := uSub_ok hpo
  obtain ⟨rfl, _⟩ := uAdd_ok hfi
  cases h
  have h1 : mult.atomics = DEC - fee.atomics := by
    simpa [decOne] using hm
  refine ⟨by simpa [decOne] using hmle, ?_, ?_, ?_, rfl⟩ <;> simp [h1] at hne ⊢
  · exact hne

theorem swapCalcOut_ok {fee : Decimal} {bi bo output fi fo : Nat} {pay : SwapAmount}
    (h : swapCalcOut fee bi bo output = .ok (fi, fo, pay)) :
    fee.atomics ≤ DEC ∧ output ≤ bo ∧ bo - output ≠ 0 ∧ DEC - fee.atomics ≠ 0 ∧
      bi ≤ bi * bo / (bo - output) ∧
      pay = .In ((bi * bo / (bo - output) - bi) * DEC / (DEC - fee.atomics) + 1) ∧
      fi = bi + ((bi * bo / (bo - output) - bi) * DEC / (DEC - fee.atomics) + 1) ∧
      fo = bo - output := by
  unfold swapCalcOut at h
  obtain ⟨num, hnum, h⟩ := Outcome.bind_eq_ok h
  obtain ⟨den, hden, h⟩ := Outcome.bind_eq_ok h
  obtain ⟨iwf, hiwf, h⟩ := Outcome.bind_eq_ok h
  obtain ⟨mult, hmult, h⟩ := Outcome.bind_eq_ok h
  obtain ⟨diff, hdiff, h⟩ := Outcome.bind_eq_ok h
  obtain ⟨prod, hprod, h⟩ := Outcome.bind_eq_ok h
  obtain ⟨q, hq, h⟩ := Outcome.bind_eq_ok h
  obtain ⟨pv, hpv, h⟩ := Outcome.bind_eq_ok h
  obtain ⟨fi', hfi, h⟩ := Outcome.bind_eq_ok h
  obtain ⟨fo', hfo, h⟩ := Outcome.bind_eq_ok h
  obtain ⟨rfl, _⟩ := uMul_ok hnum
  obtain ⟨rfl, hole⟩ := uSub_ok hden
  obtain ⟨rfl, hdne⟩ := uDiv_ok hiwf
  obtain ⟨hm, hmle⟩ := decSub_ok hmult
  obtain ⟨rfl, hble⟩ := uSub_ok hdiff
  obtain ⟨rfl, _⟩ := uMul_ok hprod
  obtain ⟨rfl, hqne⟩ := uDiv_ok hq
  obtain ⟨rfl, _⟩ := uAdd_ok hpv
  obtain ⟨rfl, _⟩ := uAdd_ok hfi
  obtain ⟨rfl, _⟩ := uSub_ok hfo
  cases h
  have h1 : mult.atomics = DEC - fee.atomics := by
    simpa [decOne] using hm
  rw [h1] at hqne
  exact ⟨by simpa [decOne] using hmle, hole, hdne, hqne, hble, by rw [h1],
    by rw [h1], rfl⟩

theorem swapCalc_ne_err {fee : Decimal} {bi bo : Nat} {a : SwapAmount} {e : OsmosisError} :
    swapCalc fee bi bo a ≠ .err e := by
  intro h
  cases a with
  | In input =>
    unfold swapCalc swapCalcIn at h
    rcases Outcome.bind_eq_err h with h | ⟨_, _, h⟩
    · exact decSub_ne_err h
    rcases Outcome.bind_eq_err h with h | ⟨_, _, h⟩
    · exact uMulDiv_ne_err h
    rcases Outcome.bind_eq_err h with h | ⟨_, _, h⟩
    · exact uMul_ne_err h
    rcases Outcome.bind_eq_err h with h | ⟨_, _, h⟩
    · exact uAdd_ne_err h
    rcases Outcome.bind_eq_err h with h | ⟨_, _, h⟩
    · exact uDiv_ne_err h
    rcases Outcome.bind_eq_err h with h | ⟨_, _, h⟩
    · exact uSub_ne_err h
    rcases Outcome.bind_eq_err h with h | ⟨_, _, h⟩
    · exact uAdd_ne_err h
    · simp at h
  | Out output =>
    unfold swapCalc swapCalcOut at h
    rcases Outcome.bind_eq_err h with h | ⟨_, _, h⟩
    · exact uMul_ne_err h
    rcases Outcome.bind_eq_err h with h | ⟨_, _, h⟩
    · exact uSub_ne_err h
    rcases Outcome.bind_eq_err h with h | ⟨_, _, h⟩
    · exact uDiv_ne_err h
    rcases Outcome.bind_eq_err h with h | ⟨_, _, h⟩
    · exact decSub_ne_err h
    rcases Outcome.bind_eq_err h with h | ⟨_, _, h⟩
    · exact uSub_ne_err h
    rcases Outcome.bind_eq_err h with h | ⟨_, _, h⟩
    · exact uMul_ne_err h
    rcases Outcome.bind_eq_err h with h | ⟨_, _, h⟩
    · exact uDiv_ne_err h
    rcases Outcome.bind_eq_err h with h | ⟨_, _, h⟩
    · exact uAdd_ne_err h
    rcases Outcome.bind_eq_err h with h | ⟨_, _, h⟩
    · exact uAdd_ne_err h
    rcases Outcome.bind_eq_err h with h | ⟨_, _, h⟩
    · exact uSub_ne_err h
    · simp at h

theorem swapCalc_ne_wv {fee : Decimal} {bi bo : Nat} {a : SwapAmount} :
    swapCalc fee bi bo a ≠ .panic .wrongVariant := by
  intro h
  cases a with
  | In input =>
    unfold swapCalc swapCalcIn at h
    rcases Outcome.bind_eq_panic h with h | ⟨_, _, h⟩
    · exact decSub_ne_wv h
    rcases Outcome.bind_eq_panic h with h | ⟨_, _, h⟩
    · exact uMulDiv_ne_wv h
    rcases Outcome.bind_eq_panic h with h | ⟨_, _, h⟩
    · exact uMul_ne_wv h
    rcases Outcome.bind_eq_panic h with h | ⟨_, _, h⟩
    · exact uAdd_ne_wv h
    rcases Outcome.bind_eq_panic h with h | ⟨_, _, h⟩
    · exact uDiv_ne_wv h
    rcases Outcome.bind_eq_panic h with h | ⟨_, _, h⟩
    · exact uSub_ne_wv h
    rcases Outcome.bind_eq_panic h with h | ⟨_, _, h⟩
    · exact uAdd_ne_wv h
    · simp at h
  | Out output =>
    unfold swapCalc swapCalcOut at h
    rcases Outcome.bind_eq_panic h with h | ⟨_, _, h⟩
    · exact uMul_ne_wv h
    rcases Outcome.bind_eq_panic h with h | ⟨_, _, h⟩
    · exact uSub_ne_wv h
    rcases Outcome.bind_eq_panic h with h | ⟨_, _, h⟩
    · exact uDiv_ne_wv h
    rcases Outcome.bind_eq_panic h with h | ⟨_, _, h⟩
    · exact decSub_ne_wv h
    rcases Outcome.bind_eq_panic h with h | ⟨_, _, h⟩
    · exact uSub_ne_wv h
    rcases Outcome.bind_eq_panic h with h | ⟨_, _, h⟩
    · exact uMul_ne_wv h
    rcases Outcome.bind_eq_panic h with h | ⟨_, _, h⟩
    · exact uDiv_ne_wv h
    rcases Outcome.bind_eq_panic h with h | ⟨_, _, h⟩
    · exact uAdd_ne_wv h
    rcases Outcome.bind_eq_panic h with h | ⟨_, _, h⟩
    · exact uAdd_ne_wv h
    rcases Outcome.bind_eq_panic h with h | ⟨_, _, h⟩
    · exact uSub_ne_wv h
    · simp at h

theorem swapCalcOut_insufficient (fee : Decimal) (bi : Nat) {bo output : Nat}
    (hout : bo ≤ output) : ∃ k, swapCalcOut fee bi bo output = .panic k := by
  unfold swapCalcOut
  cases hmul : uMul bi bo with
  | ok num =>
    rcases Nat.lt_or_ge bo output with hlt | hge
    · have hsub : uSub bo output = .panic .subOverflow := by
        unfold uSub; simp [Nat.not_le.mpr hlt]
      exact ⟨.subOverflow, by simp [hsub]⟩
    · have hbo : output = bo := Nat.le_antisymm hge hout
      have hsub : uSub bo output = .ok 0 := by
        unfold uSub; simp [hbo]
      have hdiv : uDiv num 0 = .panic .divByZero := by unfold uDiv; simp
      exact ⟨.divByZero, by simp [hsub, hdiv]⟩
  | err e => exact absurd hmul uMul_ne_err
  | panic k => exact ⟨k, by simp [hmul]⟩

/-! ## Lemmas about `set_amount` / `get_amount` -/

theorem setAmountList_spec :
    ∀ (l : List Coin) (d : String) (v : Nat) (l' : List Coin),
      setAmountList l d v = some l' →
      l'.map Coin.denom = l.map Coin.denom ∧
      (l'.find? fun c => c.denom == d).map Coin.amount = some v ∧
      ∀ d', d' ≠ d → (l'.find? fun c => c.denom == d') = l.find? fun c => c.denom == d' := by
  intro l
  induction l with
  | nil => intro d v l' h; simp [setAmountList] at h
  | cons c rest ih =>
    intro d v l' h
    unfold setAmountList at h
    by_cases hd : c.denom = d
    · simp only [hd, beq_self_eq_true, if_true, Option.some.injEq] at h
      subst h
      refine ⟨by simp [hd], by simp [List.find?, hd], ?_⟩
      intro d' hne
      have : (d == d') = false := beq_eq_false_iff_ne.mpr fun e => hne e.symm
      simp [List.find?, hd, this]
    · have hb : (c.denom == d) = false := by simp [beq_eq_false_iff_ne, hd]
      simp only [hb, Bool.false_eq_true, if_false] at h
      cases hrest : setAmountList rest d v with
      | none => rw [hrest] at h; simp at h
      | some rest' =>
        rw [hrest] at h
        simp only [Option.map_some', Option.some.injEq] at h
        subst h
        obtain ⟨hm, hfind, hother⟩ := ih d v rest' hrest
        refine ⟨by simp [hm], by simp [List.find?, hb, hfind], ?_⟩
        intro d' hne
        by_cases hd' : c.denom = d'
        · simp [List.find?, hd']
        · have hb' : (c.denom == d') = false := by simp [beq_eq_false_iff_ne, hd']
          simp [List.find?, hb', hother d' hne]

theorem set_amount_ok_spec {p : Pool} {d : String} {v : Nat} {p' : Pool}
    (h : p.set_amount d v = .ok p') :
    p'.shares = p.shares ∧ p'.fee = p.fee ∧
    p'.assets.map Coin.denom = p.assets.map Coin.denom ∧
    p'.get_amount d = some v ∧
    ∀ d', d' ≠ d → p'.get_amount d' = p.get_amount d' := by
  unfold Pool.set_amount at h
  cases hset : setAmountList p.assets d v with
  | none => rw [hset] at h; simp at h
  | some l =>
    rw [hset] at h
    simp only [Outcome.ok.injEq] at h
    subst h
    obtain ⟨hm, hfind, hother⟩ := setAmountList_spec p.assets d v l hset
    exact ⟨rfl, rfl, hm, by simpa [Pool.get_amount] using hfind,
      fun d' hne => by simp [Pool.get_amount, hother d' hne]⟩

theorem set_amount_ne_panic {p : Pool} {d : String} {v : Nat} {k : PanicKind} :
    p.set_amount d v ≠ .panic k := by
  unfold Pool.set_amount
  cases setAmountList p.assets d v <;> simp

theorem set_amount_err {p : Pool} {d : String} {v : Nat} {e : OsmosisError}
    (h : p.set_amount d v = .err e) : e = .assetNotInPool := by
  unfold Pool.set_amount at h
  cases hs : setAmountList p.assets d v <;> rw [hs] at h <;> simp_all

/-! ## Lemmas about `Pool.swap` -/

theorem Pool.swap_ok_elim {p : Pool} {di dt : String} {a res : SwapAmount} {p' : Pool}
    (h : p.swap di dt a = .ok (res, p')) :
    ∃ bi bo fi fo, p.get_amount di = some bi ∧ p.get_amount dt = some bo ∧
      swapCalc p.fee bi bo a = .ok (fi, fo, res) ∧
      ∃ p1, p.set_amount di fi = .ok p1 ∧ p1.set_amount dt fo = .ok p' := by
  unfold Pool.swap at h
  cases h1 : p.get_amount di with
  | none => rw [h1] at h; cases h2 : p.get_amount dt <;> rw [h2] at h <;> simp at h
  | some bi =>
    cases h2 : p.get_amount dt with
    | none => rw [h1, h2] at h; simp at h
    | some bo =>
      rw [h1, h2] at h
      obtain ⟨⟨fi, fo, pay⟩, hcalc, h⟩ := Outcome.bind_eq_ok h
      obtain ⟨p1, hp1, h⟩ := Outcome.bind_eq_ok h
      obtain ⟨p2, hp2, h⟩ := Outcome.bind_eq_ok h
      simp only [Outcome.ok.injEq, Prod.mk.injEq] at h
      obtain ⟨hres, hp'⟩ := h
      subst hres; subst hp'
      exact ⟨bi, bo, fi, fo, rfl, rfl, hcalc, p1, hp1, hp2⟩

theorem Pool.swap_ok_frame {p : Pool} {di dt : String} {a res : SwapAmount} {p' : Pool}
    (h : p.swap di dt a = .ok (res, p')) :
    p'.shares = p.shares ∧ p'.fee = p.fee ∧
    p'.assets.map Coin.denom = p.assets.map Coin.denom ∧
    ∀ d, d ≠ di → d ≠ dt → p'.get_amount d = p.get_amount d := by
  obtain ⟨bi, bo, fi, fo, _, _, _, p1, hp1, hp2⟩ := Pool.swap_ok_elim h
  obtain ⟨hs1, hf1, hm1, _, hoth1⟩ := set_amount_ok_spec hp1
  obtain ⟨hs2, hf2, hm2, _, hoth2⟩ := set_amount_ok_spec hp2
  refine ⟨hs2.trans hs1, hf2.trans hf1, hm2.trans hm1, ?_⟩
  intro d hdi hdt
  exact (hoth2 d hdt).trans (hoth1 d hdi)

theorem Pool.swap_ok_balances {p : Pool} {di dt : String} {a res : SwapAmount} {p' : Pool}
    (hne : di ≠ dt) (h : p.swap di dt a = .ok (res, p')) :
    ∃ bi bo fi fo, p.get_amount di = some bi ∧ p.get_amount dt = some bo ∧
      swapCalc p.fee bi bo a = .ok (fi, fo, res) ∧
      p'.get_amount di = some fi ∧ p'.get_amount dt = some fo := by
  obtain ⟨bi, bo, fi, fo, hbi, hbo, hcalc, p1, hp1, hp2⟩ := Pool.swap_ok_elim h
  obtain ⟨_, _, _, hget1, _⟩ := set_amount_ok_spec hp1
  obtain ⟨_, _, _, hget2, hoth2⟩ := set_amount_ok_spec hp2
  exact ⟨bi, bo, fi, fo, hbi, hbo, hcalc, (hoth2 di hne).trans hget1, hget2⟩

theorem Pool.swap_err {p : Pool} {di dt : String} {a : SwapAmount} {e : OsmosisError}
    (h : p.swap di dt a = .err e) : e = .assetNotInPool := by
  unfold Pool.swap at h
  cases h1 : p.get_amount di with
  | none =>
    rw [h1] at h; cases h2 : p.get_amount dt <;> rw [h2] at h <;> simp_all
  | some bi =>
    cases h2 : p.get_amount dt with
    | none => rw [h1, h2] at h; simp_all
    | some bo =>
      rw [h1, h2] at h
      rcases Outcome.bind_eq_err h with h' | ⟨r, _, h'⟩
      · exact absurd h' swapCalc_ne_err
      rcases Outcome.bind_eq_err h' with h'' | ⟨p1, _, h''⟩
      · exact set_amount_err h''
      rcases Outcome.bind_eq_err h'' with h3 | ⟨p2, _, h3⟩
      · exact set_amount_err h3
      · simp at h3

theorem Pool.swap_panic_ne_wv {p : Pool} {di dt : String} {a : SwapAmount} :
    p.swap di dt a ≠ .panic .wrongVariant := by
  intro h
  unfold Pool.swap at h
  cases h1 : p.get_amount di with
  | none =>
    rw [h1] at h; cases h2 : p.get_amount dt <;> rw [h2] at h <;> simp_all
  | some bi =>
    cases h2 : p.get_amount dt with
    | none => rw [h1, h2] at h; simp_all
    | some bo =>
      rw [h1, h2] at h
      rcases Outcome.bind_eq_panic h with h' | ⟨r, _, h'⟩
      · exact absurd h' swapCalc_ne_wv
      rcases Outcome.bind_eq_panic h' with h'' | ⟨p1, _, h''⟩
      · exact absurd h'' set_amount_ne_panic
      rcases Outcome.bind_eq_panic h'' with h3 | ⟨p2, _, h3⟩
      · exact absurd h3 set_amount_ne_panic
      · simp at h3

theorem swapCalc_In_isOut {fee : Decimal} {bi bo input fi fo : Nat} {pay : SwapAmount}
    (h : swapCalc fee bi bo (.In input) = .ok (fi, fo, pay)) : pay.isOut = true := by
  obtain ⟨_, _, _, hpay, _⟩ := swapCalcIn_ok h
  simp [hpay, SwapAmount.isOut]

theorem swapCalc_Out_isIn {fee : Decimal} {bi bo output fi fo : Nat} {pay : SwapAmount}
    (h : swapCalc fee bi bo (.Out output) = .ok (fi, fo, pay)) : pay.isIn = true := by
  obtain ⟨_, _, _, _, _, hpay, _, _⟩ := swapCalcOut_ok h
  simp [hpay, SwapAmount.isIn]

theorem Pool.swap_In_isOut {p : Pool} {di dt : String} {x : Nat} {res : SwapAmount} {p' : Pool}
    (h : p.swap di dt (.In x) = .ok (res, p')) : res.isOut = true := by
  obtain ⟨bi, bo, fi, fo, _, _, hcalc, _⟩ := Pool.swap_ok_elim h
  exact swapCalc_In_isOut hcalc

theorem Pool.swap_Out_isIn {p : Pool} {di dt : String} {x : Nat} {res : SwapAmount} {p' : Pool}
    (h : p.swap di dt (.Out x) = .ok (res, p')) : res.isIn = true := by
  obtain ⟨bi, bo, fi, fo, _, _, hcalc, _⟩ := Pool.swap_ok_elim h
  exact swapCalc_Out_isIn hcalc

/-! ## Lemmas about the router (`complex_swap`) -/

theorem Outcome.map_eq_ok {α β : Type} {f : α → β} {x : Outcome α} {b : β}
    (h : Outcome.map f x = .ok b) : ∃ a, x = .ok a ∧ f a = b := by
  cases x <;> simp_all [Outcome.map]

theorem Outcome.map_eq_err {α β : Type} {f : α → β} {x : Outcome α} {e : OsmosisError}
    (h : Outcome.map f x = .err e) : x = .err e := by
  cases x <;> simp_all [Outcome.map]

theorem Outcome.map_eq_panic {α β : Type} {f : α → β} {x : Outcome α} {k : PanicKind}
    (h : Outcome.map f x = .panic k) : x = .panic k := by
  cases x <;> simp_all [Outcome.map]

theorem loadPool_err {s : PoolStore} {id : Nat} {e : OsmosisError}
    (h : loadPool s id = .err e) : e = .notFound id := by
  unfold loadPool at h
  cases hs : s.lookup id <;> rw [hs] at h <;> simp_all

theorem loadPool_ne_panic {s : PoolStore} {id : Nat} {k : PanicKind} :
    loadPool s id ≠ .panic k := by
  unfold loadPool
  cases s.lookup id <;> simp

theorem as_out_ne_err {a : SwapAmount} {e : OsmosisError} : a.as_out ≠ .err e := by
  cases a <;> simp [SwapAmount.as_out]

theorem as_in_ne_err {a : SwapAmount} {e : OsmosisError} : a.as_in ≠ .err e := by
  cases a <;> simp [SwapAmount.as_in]

theorem isOut_as_out {a : SwapAmount} (h : a.isOut = true) : ∃ y, a = .Out y ∧ a.as_out = .ok y := by
  cases a <;> simp_all [SwapAmount.isOut, SwapAmount.as_out]

theorem isIn_as_in {a : SwapAmount} (h : a.isIn = true) : ∃ y, a = .In y ∧ a.as_in = .ok y := by
  cases a <;> simp_all [SwapAmount.isIn, SwapAmount.as_in]

theorem complexSwapIn_ne_ptl {s : PoolStore} :
    ∀ (swaps : List Swap) (input : Nat) (acc : List (Nat × Pool)),
      complexSwapIn s swaps input acc ≠ .err .priceTooLow := by
  intro swaps
  induction swaps with
  | nil => intro input acc h; simp [complexSwapIn] at h
  | cons sw rest ih =>
    intro input acc h
    unfold complexSwapIn at h
    rcases Outcome.bind_eq_err h with h' | ⟨pool, _, h'⟩
    · exact absurd (loadPool_err h') (by simp)
    rcases Outcome.bind_eq_err h' with h'' | ⟨r, hr, h''⟩
    · exact absurd (Pool.swap_err h'') (by simp)
    rcases Outcome.bind_eq_err h'' with h3 | ⟨o, _, h3⟩
    · exact as_out_ne_err h3
    · exact ih o (acc ++ [(sw.pool_id, r.2)]) h3

theorem complexSwapOut_ne_ptl {s : PoolStore} :
    ∀ (swaps : List Swap) (output : Nat) (acc : List (Nat × Pool)),
      complexSwapOut s swaps output acc ≠ .err .priceTooLow := by
  intro swaps
  induction swaps with
  | nil => intro output acc h; simp [complexSwapOut] at h
  | cons sw rest ih =>
    intro output acc h
    unfold complexSwapOut at h
    rcases Outcome.bind_eq_err h with h' | ⟨pool, _, h'⟩
    · exact absurd (loadPool_err h') (by simp)
    rcases Outcome.bind_eq_err h' with h'' | ⟨r, hr, h''⟩
    · exact absurd (Pool.swap_err h'') (by simp)
    rcases Outcome.bind_eq_err h'' with h3 | ⟨i, _, h3⟩
    · exact as_in_ne_err h3
    · exact ih i (acc ++ [(sw.pool_id, r.2)]) h3

theorem complexSwapIn_ne_wv {s : PoolStore} :
    ∀ (swaps : List Swap) (input : Nat) (acc : List (Nat × Pool)),
      complexSwapIn s swaps input acc ≠ .panic .wrongVariant := by
  intro swaps
  induction swaps with
  | nil => intro input acc h; simp [complexSwapIn] at h
  | cons sw rest ih =>
    intro input acc h
    unfold complexSwapIn at h
    rcases Outcome.bind_eq_panic h with h' | ⟨pool, _, h'⟩
    · exact loadPool_ne_panic h'
    rcases Outcome.bind_eq_panic h' with h'' | ⟨r, hr, h''⟩
    · exact Pool.swap_panic_ne_wv h''
    obtain ⟨pay, p2⟩ := r
    rcases Outcome.bind_eq_panic h'' with h3 | ⟨o, _, h3⟩
    · obtain ⟨y, hy, hok⟩ := isOut_as_out (Pool.swap_In_isOut hr)
      rw [hy] at h3
      simp [SwapAmount.as_out] at h3
    · exact ih o (acc ++ [(sw.pool_id, p2)]) h3

theorem complexSwapOut_ne_wv {s : PoolStore} :
    ∀ (swaps : List Swap) (output : Nat) (acc : List (Nat × Pool)),
      complexSwapOut s swaps output acc ≠ .panic .wrongVariant := by
  intro swaps
  induction swaps with
  | nil => intro output acc h; simp [complexSwapOut] at h
  | cons sw rest ih =>
    intro output acc h
    unfold complexSwapOut at h
    rcases Outcome.bind_eq_panic h with h' | ⟨pool, _, h'⟩
    · exact loadPool_ne_panic h'
    rcases Outcome.bind_eq_panic h' with h'' | ⟨r, hr, h''⟩
    · exact Pool.swap_panic_ne_wv h''
    obtain ⟨pay, p2⟩ := r
    rcases Outcome.bind_eq_panic h'' with h3 | ⟨i, _, h3⟩
    · obtain ⟨y, hy, hok⟩ := isIn_as_in (Pool.swap_Out_isIn hr)
      rw [hy] at h3
      simp [SwapAmount.as_in] at h3
    · exact ih i (acc ++ [(sw.pool_id, p2)]) h3

theorem complexSwapIn_ids {s : PoolStore} :
    ∀ (swaps : List Swap) (input : Nat) (acc : List (Nat × Pool)) (x : Nat)
      (pools : List (Nat × Pool)),
      complexSwapIn s swaps input acc = .ok (x, pools) →
      pools.map Prod.fst = acc.map Prod.fst ++ swaps.map Swap.pool_id := by
  intro swaps
  induction swaps with
  | nil =>
    intro input acc x pools h
    simp [complexSwapIn] at h
    simp [h.2]
  | cons sw rest ih =>
    intro input acc x pools h
    unfold complexSwapIn at h
    obtain ⟨pool, _, h⟩ := Outcome.bind_eq_ok h
    obtain ⟨r, _, h⟩ := Outcome.bind_eq_ok h
    obtain ⟨o, _, h⟩ := Outcome.bind_eq_ok h
    have := ih o (acc ++ [(sw.pool_id, r.2)]) x pools h
    simpa using this

theorem complexSwapOut_ids {s : PoolStore} :
    ∀ (swaps : List Swap) (output : Nat) (acc : List (Nat × Pool)) (x : Nat)
      (pools : List (Nat × Pool)),
      complexSwapOut s swaps output acc = .ok (x, pools) →
      pools.map Prod.fst = acc.map Prod.fst ++ swaps.map Swap.pool_id := by
  intro swaps
  induction swaps with
  | nil =>
    intro output acc x pools h
    simp [complexSwapOut] at h
    simp [h.2]
  | cons sw rest ih =>
    intro output acc x pools h
    unfold complexSwapOut at h
    obtain ⟨pool, _, h⟩ := Outcome.bind_eq_ok h
    obtain ⟨r, _, h⟩ := Outcome.bind_eq_ok h
    obtain ⟨i, _, h⟩ := Outcome.bind_eq_ok h
    have := ih i (acc ++ [(sw.pool_id, r.2)]) x pools h
    simpa using this

theorem complexSwapIn_trace {s : PoolStore} :
    ∀ (swaps : List Swap) (input : Nat) (acc : List (Nat × Pool)) (out : Nat)
      (pools : List (Nat × Pool)),
      complexSwapIn s swaps input acc = .ok (out, pools) →
      ∃ mid, pools = acc ++ mid ∧ mid.length = swaps.length ∧
        ∀ i (hi : i < swaps.length) (hm : i < mid.length),
          ∃ p0 a y p',
            loadPool s (swaps.get ⟨i, hi⟩).pool_id = .ok p0 ∧
            p0.swap (swaps.get ⟨i, hi⟩).denom_in (swaps.get ⟨i, hi⟩).denom_out
              (.In a) = .ok (.Out y, p') ∧
            mid.get ⟨i, hm⟩ = ((swaps.get ⟨i, hi⟩).pool_id, p') := by
  intro swaps
  induction swaps with
  | nil =>
    intro input acc out pools h
    simp [complexSwapIn] at h
    obtain ⟨_, h2⟩ := h
    subst h2
    exact ⟨[], by simp, rfl, fun i hi hm => absurd hi (Nat.not_lt_zero i)⟩
  | cons sw rest ih =>
    intro input acc out pools h
    unfold complexSwapIn at h
    obtain ⟨p0, hp0, h⟩ := Outcome.bind_eq_ok h
    obtain ⟨⟨pay, p2⟩, hr, h⟩ := Outcome.bind_eq_ok h
    obtain ⟨o, ho, h⟩ := Outcome.bind_eq_ok h
    obtain ⟨y, hy, _⟩ := isOut_as_out (Pool.swap_In_isOut hr)
    subst hy
    have hoy : y = o := by simpa [SwapAmount.as_out] using ho
    subst hoy
    obtain ⟨mid', hpools, hlen, htrace⟩ := ih y (acc ++ [(sw.pool_id, p2)]) out pools h
    refine ⟨(sw.pool_id, p2) :: mid', by rw [hpools]; simp, by simp [hlen], ?_⟩
    intro i hi hm
    cases i with
    | zero => exact ⟨p0, input, y, p2, hp0, hr, rfl⟩
    | succ j =>
      have hj : j < rest.length := by simpa using hi
      have hjm : j < mid'.length := by simpa using hm
      obtain ⟨q0, a, z, q', h1, h2, h3⟩ := htrace j hj hjm
      exact ⟨q0, a, z, q', h1, h2, h3⟩

theorem complexSwapOut_trace {s : PoolStore} :
    ∀ (swaps : List Swap) (output : Nat) (acc : List (Nat × Pool)) (out : Nat)
      (pools : List (Nat × Pool)),
      complexSwapOut s swaps output acc = .ok (out, pools) →
      ∃ mid, pools = acc ++ mid ∧ mid.length = swaps.length ∧
        ∀ i (hi : i < swaps.length) (hm : i < mid.length),
          ∃ p0 a y p',
            loadPool s (swaps.get ⟨i, hi⟩).pool_id = .ok p0 ∧
            p0.swap (swaps.get ⟨i, hi⟩).denom_in (swaps.get ⟨i, hi⟩).denom_out
              (.Out a) = .ok (.In y, p') ∧
            mid.get ⟨i, hm⟩ = ((swaps.get ⟨i, hi⟩).pool_id, p') := by
  intro swaps
  induction swaps with
  | nil =>
    intro output acc out pools h
    simp [complexSwapOut] at h
    obtain ⟨_, h2⟩ := h
    subst h2
    exact ⟨[], by simp, rfl, fun i hi hm => absurd hi (Nat.not_lt_zero i)⟩
  | cons sw rest ih =>
    intro output acc out pools h
    unfold complexSwapOut at h
    obtain ⟨p0, hp0, h⟩ := Outcome.bind_eq_ok h
    obtain ⟨⟨pay, p2⟩, hr, h⟩ := Outcome.bind_eq_ok h
    obtain ⟨o, ho, h⟩ := Outcome.bind_eq_ok h
    obtain ⟨y, hy, _⟩ := isIn_as_in (Pool.swap_Out_isIn hr)
    subst hy
    have hoy : y = o := by simpa [SwapAmount.as_in] using ho
    subst hoy
    obtain ⟨mid', hpools, hlen, htrace⟩ := ih y (acc ++ [(sw.pool_id, p2)]) out pools h
    refine ⟨(sw.pool_id, p2) :: mid', by rw [hpools]; simp, by simp [hlen], ?_⟩
    intro i hi hm
    cases i with
    | zero => exact ⟨p0, output, y, p2, hp0, hr, rfl⟩
    | succ j =>
      have hj : j < rest.length := by simpa using hi
      have hjm : j < mid'.length := by simpa using hm
      obtain ⟨q0, a, z, q', h1, h2, h3⟩ := htrace j hj hjm
      exact ⟨q0, a, z, q', h1, h2, h3⟩

theorem complex_swap_ne_ptl {s : PoolStore} {f : Swap} {r : List Step} {a : SwapAmount} :
    complex_swap s f r a ≠ .err .priceTooLow := by
  intro h
  unfold complex_swap at h
  cases a with
  | In input => exact complexSwapIn_ne_ptl _ _ _ (Outcome.map_eq_err h)
  | Out output => exact complexSwapOut_ne_ptl _ _ _ (Outcome.map_eq_err h)

theorem complex_swap_ne_wv {s : PoolStore} {f : Swap} {r : List Step} {a : SwapAmount} :
    complex_swap s f r a ≠ .panic .wrongVariant := by
  intro h
  unfold complex_swap at h
  cases a with
  | In input => exact complexSwapIn_ne_wv _ _ _ (Outcome.map_eq_panic h)
  | Out output => exact complexSwapOut_ne_wv _ _ _ (Outcome.map_eq_panic h)

theorem complex_swap_In_shape {s : PoolStore} {f : Swap} {r : List Step} {x : Nat}
    {res : SwapAmount} {pools : List (Nat × Pool)}
    (h : complex_swap s f r (.In x) = .ok (res, pools)) : ∃ y, res = .Out y := by
  unfold complex_swap at h
  obtain ⟨⟨y, ps⟩, _, hmap⟩ := Outcome.map_eq_ok h
  exact ⟨y, by simp_all⟩

theorem complex_swap_Out_shape {s : PoolStore} {f : Swap} {r : List Step} {x : Nat}
    {res : SwapAmount} {pools : List (Nat × Pool)}
    (h : complex_swap s f r (.Out x) = .ok (res, pools)) : ∃ y, res = .In y := by
  unfold complex_swap at h
  obtain ⟨⟨y, ps⟩, _, hmap⟩ := Outcome.map_eq_ok h
  exact ⟨y, by simp_all⟩

/-! ## Arithmetic helper lemmas -/

theorem natLtDivSucc (n d : Nat) (hd : 0 < d) : n < d * (n / d + 1) := by
  have h1 := Nat.div_add_mod n d
  have h2 := Nat.mod_lt n hd
  calc n = d * (n / d) + n % d := h1.symm
    _ < d * (n / d) + d := Nat.add_lt_add_left h2 _
    _ = d * (n / d + 1) := by rw [Nat.mul_succ]

theorem mulDivDecLe (x f : Nat) : x * (DEC - f) / DEC ≤ x := by
  have h1 : x * (DEC - f) ≤ x * DEC := Nat.mul_le_mul_left x (Nat.sub_le _ _)
  have h2 : x * (DEC - f) / DEC ≤ x * DEC / DEC := Nat.div_le_div_right h1
  have hDEC : 0 < DEC := by unfold DEC; exact pow_pos (by omega) 18
  have h3 : x * DEC / DEC = x := Nat.mul_div_cancel x hDEC
  rw [h3] at h2
  exact h2

theorem leMulDivSub (x d : Nat) (hd : d ≠ 0) (hle : d ≤ DEC) : x ≤ x * DEC / d := by
  have h1 : x * d ≤ x * DEC := Nat.mul_le_mul_left x hle
  have h2 : x * d / d ≤ x * DEC / d := Nat.div_le_div_right h1
  have h3 : x * d / d = x := Nat.mul_div_cancel x (Nat.pos_of_ne_zero hd)
  rw [h3] at h2
  exact h2

theorem floor_le_cdivNat (a b : Nat) (hb : b ≠ 0) : a / b ≤ cdivNat a b := by
  unfold cdivNat
  exact Nat.div_le_div_right (by omega)

theorem cdivNat_le_floor_succ (a b : Nat) (hb : b ≠ 0) : cdivNat a b ≤ a / b + 1 := by
  unfold cdivNat
  have h1 : a + b - 1 ≤ a + b := by omega
  have h2 : (a + b) / b = a / b + 1 := Nat.add_div_right a (Nat.pos_of_ne_zero hb)
  calc (a + b - 1) / b ≤ (a + b) / b := Nat.div_le_div_right h1
    _ = a / b + 1 := h2

/-! ## Lemmas about the hop-list construction -/

theorem routeSwaps_length :
    ∀ (route : List Step) (prev : String), (routeSwaps prev route).length = route.length := by
  intro route
  induction route with
  | nil => intro prev; simp [routeSwaps]
  | cons st rest ih => intro prev; simp [routeSwaps, ih]

theorem routeSwaps_proj :
    ∀ (route : List Step) (prev : String),
      (routeSwaps prev route).map (fun sw => (sw.pool_id, sw.denom_out)) =
        route.map fun st => (st.pool_id, st.denom_out) := by
  intro route
  induction route with
  | nil => intro prev; simp [routeSwaps]
  | cons st rest ih => intro prev; simp [routeSwaps, ih]

theorem routeSwaps_head_in :
    ∀ (route : List Step) (prev : String) (sw : Swap),
      (routeSwaps prev route).head? = some sw → sw.denom_in = prev := by
  intro route prev sw h
  cases route with
  | nil => simp [routeSwaps] at h
  | cons st rest =>
    simp [routeSwaps] at h
    rw [← h]

theorem routeSwaps_chain :
    ∀ (route : List Step) (prev : String),
      List.Chain' (fun a b => b.denom_in = a.denom_out) (routeSwaps prev route) := by
  intro route
  induction route with
  | nil => intro prev; simp [routeSwaps]
  | cons st rest ih =>
    intro prev
    rw [routeSwaps, List.chain'_cons']
    refine ⟨?_, ih st.denom_out⟩
    intro sw hsw
    exact routeSwaps_head_in rest st.denom_out sw hsw

/-! ## Reduction lemmas for the handler pieces -/

theorem checkLimit_ExactIn_Out (i m o : Nat) :
    checkLimit (.ExactIn i m) (.Out o) =
      if o < m then .err .priceTooLow else .ok () := rfl

theorem checkLimit_ExactOut_In (o m i : Nat) :
    checkLimit (.ExactOut o m) (.In i) =
      if m < i then .err .priceTooLow else .ok () := rfl

theorem responseAmount_ExactIn_Out (i m o : Nat) :
    responseAmount (.ExactIn i m) (.Out o) = .ok (.Out o) := rfl

theorem responseAmount_ExactOut_In (o m i : Nat) :
    responseAmount (.ExactOut o m) (.In i) = .ok (.In i) := rfl

theorem checkLimit_err {al : SwapAmountWithLimit} {res : SwapAmount} {e : OsmosisError}
    (h : checkLimit al res = .err e) :
    e = .priceTooLow ∧ limitViolated al res = true := by
  cases al <;> cases res <;>
    simp_all [checkLimit, limitViolated, SwapAmount.as_out, SwapAmount.as_in] <;>
    split at h <;> simp_all

theorem checkLimit_ok {al : SwapAmountWithLimit} {res : SwapAmount} {u : Unit}
    (h : checkLimit al res = .ok u) : limitViolated al res = false := by
  cases al <;> cases res <;>
    simp_all [checkLimit, limitViolated, SwapAmount.as_out, SwapAmount.as_in]

theorem checkLimit_of_viol {al : SwapAmountWithLimit} {res : SwapAmount}
    (h : limitViolated al res = true) : checkLimit al res = .err .priceTooLow := by
  cases al <;> cases res <;>
    simp_all [checkLimit, limitViolated, SwapAmount.as_out, SwapAmount.as_in]

theorem responseAmount_ne_err {al : SwapAmountWithLimit} {res : SwapAmount}
    {e : OsmosisError} : responseAmount al res ≠ .err e := by
  cases al <;> cases res <;>
    simp [responseAmount, SwapAmount.as_out, SwapAmount.as_in, Outcome.map]

/-- Complete case analysis of the `Swap` handler: it either propagates a
routing error or panic with the storage untouched, rejects a violated
slippage bound with `PriceTooLow` and the storage untouched, or saves every
collected snapshot and answers with the routed amount. -/
theorem executeSwapMsg_cases (s : PoolStore) (f : Swap) (r : List Step)
    (al : SwapAmountWithLimit) :
    (∃ e, complex_swap s f r al.discard_limit = .err e ∧
        executeSwapMsg s f r al = (s, .err e)) ∨
    (∃ k, complex_swap s f r al.discard_limit = .panic k ∧
        executeSwapMsg s f r al = (s, .panic k)) ∨
    (∃ res pools, complex_swap s f r al.discard_limit = .ok (res, pools) ∧
      ((limitViolated al res = true ∧
          executeSwapMsg s f r al = (s, .err .priceTooLow)) ∨
        (limitViolated al res = false ∧
          executeSwapMsg s f r al = (saveAll s pools, .ok res)))) := by
  cases hcs : complex_swap s f r al.discard_limit with
  | err e =>
    refine .inl ⟨e, rfl, ?_⟩
    unfold executeSwapMsg
    rw [hcs]
  | panic k =>
    refine .inr (.inl ⟨k, rfl, ?_⟩)
    unfold executeSwapMsg
    rw [hcs]
  | ok rp =>
    obtain ⟨res, pools⟩ := rp
    refine .inr (.inr ⟨res, pools, rfl, ?_⟩)
    cases al with
    | ExactIn i m =>
      obtain ⟨y, rfl⟩ := complex_swap_In_shape (x := i) hcs
      by_cases hv : y < m
      · refine .inl ⟨by simp [limitViolated, hv], ?_⟩
        have hcl : checkLimit (.ExactIn i m) (.Out y) = .err .priceTooLow := by
          rw [checkLimit_ExactIn_Out]; simp [hv]
        unfold executeSwapMsg
        rw [hcs]
        simp [hcl]
      · refine .inr ⟨by simp [limitViolated, hv], ?_⟩
        have hcl : checkLimit (.ExactIn i m) (.Out y) = .ok () := by
          rw [checkLimit_ExactIn_Out]; simp [hv]
        unfold executeSwapMsg
        rw [hcs]
        simp [hcl, responseAmount_ExactIn_Out]
    | ExactOut o m =>
      obtain ⟨y, rfl⟩ := complex_swap_Out_shape (x := o) hcs
      by_cases hv : m < y
      · refine .inl ⟨by simp [limitViolated, hv], ?_⟩
        have hcl : checkLimit (.ExactOut o m) (.In y) = .err .priceTooLow := by
          rw [checkLimit_ExactOut_In]; simp [hv]
        unfold executeSwapMsg
        rw [hcs]
        simp [hcl]
      · refine .inr ⟨by simp [limitViolated, hv], ?_⟩
        have hcl : checkLimit (.ExactOut o m) (.In y) = .ok () := by
          rw [checkLimit_ExactOut_In]; simp [hv]
        unfold executeSwapMsg
        rw [hcs]
        simp [hcl, responseAmount_ExactOut_In]

/-! ## Claim theorems -/

/-- C9: `Pool::new(a, b)` sets `shares` to the integer square root of
`a.amount * b.amount` (and the 0.3% fee and the two seed assets in order),
and every successful `Pool::swap` leaves `shares`, `fee`, the ordered list of
asset denominations, and the balance of every denomination other than
`denom_in`/`denom_out` unchanged. -/
theorem pool_new_shares_and_swap_frame :
    (∀ (a b : Coin) (p : Pool), Pool.new a b = .ok p →
      p.shares = Nat.sqrt (a.amount * b.amount) ∧ p.fee = decPermille 3 ∧
        p.assets = [a, b]) ∧
    (∀ (p : Pool) (di dt : String) (amt res : SwapAmount) (p' : Pool),
      p.swap di dt amt = .ok (res, p') →
      p'.shares = p.shares ∧ p'.fee = p.fee ∧
        p'.assets.map Coin.denom = p.assets.map Coin.denom ∧
        ∀ d, d ≠ di → d ≠ dt → p'.get_amount d = p.get_amount d) := by
  constructor
  · intro a b p h
    unfold Pool.new at h
    obtain ⟨prod, hmul, hpure⟩ := Outcome.bind_eq_ok h
    obtain ⟨rfl, _⟩ := uMul_ok hmul
    cases hpure
    exact ⟨rfl, rfl, rfl⟩
  · intro p di dt amt res p' h
    exact Pool.swap_ok_frame h

/-- C9 witness: a concrete pool creation (`shares = isqrt(6e6 * 1.5e6) =
3e6`) and a concrete swap that leaves shares and an untouched denomination's
balance unchanged. -/
theorem pool_new_shares_and_swap_frame_witness :
    (Pool.mk [⟨"osmo", 6000000⟩, ⟨"atom", 1500000⟩] 3000000 (decPermille 3)).shares =
        Nat.sqrt (6000000 * 1500000) ∧
      (Pool.mk [⟨"a", 1010⟩, ⟨"b", 0⟩] 10 (decPermille 3)).get_amount "zzz" =
        (Pool.mk [⟨"a", 10⟩, ⟨"b", 10⟩] 10 (decPermille 3)).get_amount "zzz" :=
  ⟨(pool_new_shares_and_swap_frame.1 ⟨"osmo", 6000000⟩ ⟨"atom", 1500000⟩
      (Pool.mk [⟨"osmo", 6000000⟩, ⟨"atom", 1500000⟩] 3000000 (decPermille 3))
      (by
        unfold Pool.new
        rw [show uMul (Coin.mk "osmo" 6000000).amount (Coin.mk "atom" 1500000).amount =
          .ok 9000000000000 from by decide]
        rw [Outcome.bind_ok_left]
        rw [show Nat.sqrt 9000000000000 = 3000000 from by
          rw [show (9000000000000 : Nat) = 3000000 * 3000000 from by norm_num, Nat.sqrt_eq]])).1,
    (pool_new_shares_and_swap_frame.2
      (Pool.mk [⟨"a", 10⟩, ⟨"b", 10⟩] 10 (decPermille 3)) "a" "b" (.In 1000)
      (.Out 10) (Pool.mk [⟨"a", 1010⟩, ⟨"b", 0⟩] 10 (decPermille 3))
      (by decide)).2.2.2 "zzz" (by decide) (by decide)⟩

/-- C10: a `Pool::swap` with `SwapAmount::In` that returns `Ok` always
returns an `Out` value and vice versa, and consequently the `as_out`/`as_in`
panic branches are unreachable in `complex_swap` and in the `Swap` command
handler. -/
theorem swap_variant_discipline :
    (∀ (p : Pool) (di dt : String) (x : Nat) (res : SwapAmount) (p' : Pool),
        p.swap di dt (.In x) = .ok (res, p') → res.isOut = true) ∧
    (∀ (p : Pool) (di dt : String) (x : Nat) (res : SwapAmount) (p' : Pool),
        p.swap di dt (.Out x) = .ok (res, p') → res.isIn = true) ∧
    (∀ (s : PoolStore) (f : Swap) (r : List Step) (a : SwapAmount),
        complex_swap s f r a ≠ .panic .wrongVariant) ∧
    (∀ (s : PoolStore) (f : Swap) (r : List Step) (al : SwapAmountWithLimit),
        (executeSwapMsg s f r al).2 ≠ .panic .wrongVariant) := by
  refine ⟨fun p di dt x res p' h => Pool.swap_In_isOut h,
    fun p di dt x res p' h => Pool.swap_Out_isIn h,
    fun s f r a => complex_swap_ne_wv, fun s f r al h => ?_⟩
  rcases executeSwapMsg_cases s f r al with ⟨e, _, hx⟩ | ⟨k, hk, hx⟩ |
    ⟨res, pools, _, hrest⟩
  · rw [hx] at h
    simp at h
  · rw [hx] at h
    simp at h
    subst h
    exact complex_swap_ne_wv hk
  · rcases hrest with ⟨_, hx⟩ | ⟨_, hx⟩ <;> rw [hx] at h <;> simp at h

/-- C10 witness: a concrete `In`-swap returning an `Out` value, and a
concrete `complex_swap` that is not a wrong-variant panic. -/
theorem swap_variant_discipline_witness :
    (SwapAmount.Out 4).isOut = true ∧
      complex_swap [] ⟨1, "a", "b"⟩ [] (.In 5) ≠ .panic .wrongVariant :=
  ⟨swap_variant_discipline.1 (Pool.mk [⟨"a", 20⟩, ⟨"b", 20⟩] 20 ⟨0⟩) "a" "b" 5
      (.Out 4) (Pool.mk [⟨"a", 25⟩, ⟨"b", 16⟩] 20 ⟨0⟩) (by decide),
    swap_variant_discipline.2.2.1 [] ⟨1, "a", "b"⟩ [] (.In 5)⟩

/-- C3 counterexample: with pool balances `(10, 10)` an exact-out request of
the full balance (`output = bal_out = 10`) makes `Pool::swap` panic with a
division by zero, and `output = 11 > bal_out` makes it panic with a
subtraction overflow — in neither case is a domain error returned, contrary
to the claim. -/
theorem swap_insufficient_liquidity_cex :
    Pool.swap (Pool.mk [⟨"a", 10⟩, ⟨"b", 10⟩] 10 (decPermille 3)) "a" "b" (.Out 10) =
        .panic .divByZero ∧
      Pool.swap (Pool.mk [⟨"a", 10⟩, ⟨"b", 10⟩] 10 (decPermille 3)) "a" "b" (.Out 11) =
        .panic .subOverflow := by decide

/-- C3 amended: for every pool containing both denominations and every
exact-out request with `output ≥ bal_out`, `Pool::swap` panics (division by
zero, subtraction overflow, or multiplication overflow) — it never returns
`Ok`, never silently clamps, but the failure is a panic rather than a
returned domain error. -/
theorem swap_insufficient_liquidity_panics (p : Pool) (di dt : String)
    (output bi bo : Nat)
    (hbi : p.get_amount di = some bi) (hbo : p.get_amount dt = some bo)
    (hout : bo ≤ output) :
    (p.swap di dt (.Out output)).isPanic = true := by
  obtain ⟨k, hk⟩ := swapCalcOut_insufficient p.fee bi hout
  unfold Pool.swap
  rw [hbi, hbo]
  have hc : swapCalc p.fee bi bo (.Out output) = .panic k := hk
  simp [hc, Outcome.bind, Outcome.isPanic]

/-- C3 witness: the amended claim evaluated at the concrete pool `(10, 10)`
with `output = 10`. -/
theorem swap_insufficient_liquidity_panics_witness :
    (Pool.swap (Pool.mk [⟨"a", 10⟩, ⟨"b", 10⟩] 10 (decPermille 3)) "a" "b"
      (.Out 10)).isPanic = true :=
  swap_insufficient_liquidity_panics
    (Pool.mk [⟨"a", 10⟩, ⟨"b", 10⟩] 10 (decPermille 3)) "a" "b" 10 10 10
    (by decide) (by decide) (by decide)

/-- C4 counterexample: pool `(997, 2)`, fee `0.3%`, exact-out `output = 1`.
The floored `in_without_fee` is `1994`, so the true fee-grossed required
input is exactly `997 / 0.997 = 1000` (the equation below), whose ceiling is
`1000` — but the code stores `1001`, which is not the smallest integer not
below the true required input. -/
theorem exact_out_ceiling_claim_cex :
    Pool.swap (Pool.mk [⟨"a", 997⟩, ⟨"b", 2⟩] 44 (decPermille 3)) "a" "b" (.Out 1) =
        .ok (.In 1001, Pool.mk [⟨"a", 1998⟩, ⟨"b", 1⟩] 44 (decPermille 3)) ∧
      1000 * (DEC - (decPermille 3).atomics) = 997 * DEC ∧
      cdivNat (997 * DEC) (DEC - (decPermille 3).atomics) = 1000 ∧
      (1000 : Nat) < 1001 := by decide

/-- C4 amended: for every successful exact-out swap, the required input is
`floor((in_without_fee - bal_in) * 10^18 / ((1 - fee) * 10^18)) + 1` — floor
division plus one rather than a ceiling; it is at least the ceiling of the
fee-grossing division and exceeds it by at most one (by exactly one whenever
the division is exact). -/
theorem exact_out_floor_succ_rounding (p : Pool) (di dt : String)
    (output bi bo payv : Nat) (p' : Pool)
    (hbi : p.get_amount di = some bi) (hbo : p.get_amount dt = some bo)
    (h : p.swap di dt (.Out output) = .ok (.In payv, p')) :
    payv = (bi * bo / (bo - output) - bi) * DEC / (DEC - p.fee.atomics) + 1 ∧
    cdivNat ((bi * bo / (bo - output) - bi) * DEC) (DEC - p.fee.atomics) ≤ payv ∧
    payv ≤ cdivNat ((bi * bo / (bo - output) - bi) * DEC) (DEC - p.fee.atomics) + 1 := by
  obtain ⟨bi', bo', fi, fo, hbi', hbo', hcalc, _⟩ := Pool.swap_ok_elim h
  rw [hbi] at hbi'
  rw [hbo] at hbo'
  cases hbi'
  cases hbo'
  obtain ⟨_, _, _, hfne, _, hpay, _, _⟩ := swapCalcOut_ok hcalc
  have hpv : payv = (bi * bo / (bo - output) - bi) * DEC / (DEC - p.fee.atomics) + 1 := by
    simp only [SwapAmount.In.injEq] at hpay
    exact hpay
  refine ⟨hpv, ?_, ?_⟩
  · calc cdivNat ((bi * bo / (bo - output) - bi) * DEC) (DEC - p.fee.atomics)
        ≤ (bi * bo / (bo - output) - bi) * DEC / (DEC - p.fee.atomics) + 1 :=
          cdivNat_le_floor_succ _ _ hfne
      _ = payv := hpv.symm
  · calc payv = (bi * bo / (bo - output) - bi) * DEC / (DEC - p.fee.atomics) + 1 := hpv
      _ ≤ cdivNat ((bi * bo / (bo - output) - bi) * DEC) (DEC - p.fee.atomics) + 1 :=
          Nat.add_le_add_right (floor_le_cdivNat _ _ hfne) 1

/-- C4 witness: the amended claim evaluated on the `(997, 2)` pool, where
the stored input `1001` is the floored quotient plus one and exceeds the
true ceiling `1000` by one. -/
theorem exact_out_floor_succ_rounding_witness :
    (1001 : Nat) = (997 * 2 / (2 - 1) - 997) * DEC / (DEC - (decPermille 3).atomics) + 1 ∧
      cdivNat ((997 * 2 / (2 - 1) - 997) * DEC) (DEC - (decPermille 3).atomics) ≤ 1001 ∧
      (1001 : Nat) ≤ cdivNat ((997 * 2 / (2 - 1) - 997) * DEC) (DEC - (decPermille 3).atomics) + 1 :=
  exact_out_floor_succ_rounding
    (Pool.mk [⟨"a", 997⟩, ⟨"b", 2⟩] 44 (decPermille 3)) "a" "b" 1 997 2 1001
    (Pool.mk [⟨"a", 1998⟩, ⟨"b", 1⟩] 44 (decPermille 3))
    (by decide) (by decide) (by decide)

/-- C1 counterexample: with pool `(10, 10)`, fee `0.3% > 0`, a successful
exact-in swap of `1000` drains the out balance to `0`, so the post-swap
product `1010 * 0 = 0` is below `10 * 10` — the claimed `≥` fails; and with
fee `0`, swapping in `3` gives balances `(13, 7)` whose product `91` differs
from `100` — the claimed equality fails. -/
theorem swap_product_claim_cex :
    (Pool.swap (Pool.mk [⟨"a", 10⟩, ⟨"b", 10⟩] 10 (decPermille 3)) "a" "b" (.In 1000) =
        .ok (.Out 10, Pool.mk [⟨"a", 1010⟩, ⟨"b", 0⟩] 10 (decPermille 3)) ∧
      0 < (decPermille 3).atomics ∧ 1010 * 0 < 10 * 10) ∧
    (Pool.swap (Pool.mk [⟨"a", 10⟩, ⟨"b", 10⟩] 10 ⟨0⟩) "a" "b" (.In 3) =
        .ok (.Out 3, Pool.mk [⟨"a", 13⟩, ⟨"b", 7⟩] 10 ⟨0⟩) ∧
      13 * 7 ≠ 10 * 10) := by decide

/-- C1 amended: for every successful `Pool::swap` on distinct denominations
with pre-swap balances `(bi, bo)` and post-swap balances `(fi, fo)`, the
product is preserved up to one unit of integer rounding of the output
balance: `bi * bo < fi * (fo + 1)`; for exact-out requests the stronger
strict increase `bi * bo < fi * fo` holds (for any fee, including zero).
The originally claimed `fi * fo ≥ bi * bo` (fee > 0) and exact equality
(fee = 0) do not hold for exact-in swaps. -/
theorem swap_product_rounding_bound (p : Pool) (di dt : String) (a res : SwapAmount)
    (p' : Pool) (bi bo fi fo : Nat)
    (hne : di ≠ dt)
    (hbi : p.get_amount di = some bi) (hbo : p.get_amount dt = some bo)
    (hswap : p.swap di dt a = .ok (res, p'))
    (hfi : p'.get_amount di = some fi) (hfo : p'.get_amount dt = some fo) :
    bi * bo < fi * (fo + 1) ∧ (a.isOut = true → bi * bo < fi * fo) := by
  obtain ⟨bi', bo', fi', fo', hbi', hbo', hcalc, hfi', hfo'⟩ :=
    Pool.swap_ok_balances hne hswap
  rw [hbi] at hbi'
  rw [hbo] at hbo'
  rw [hfi] at hfi'
  rw [hfo] at hfo'
  cases hbi'
  cases hbo'
  cases hfi'
  cases hfo'
  cases a with
  | In input =>
    obtain ⟨hfee, hdne, hfoeq, _, hfieq⟩ := swapCalcIn_ok hcalc
    have hpos : 0 < bi + input * (DEC - p.fee.atomics) / DEC := Nat.pos_of_ne_zero hdne
    have h1 : bi * bo < (bi + input * (DEC - p.fee.atomics) / DEC) * (fo + 1) := by
      rw [hfoeq]
      exact natLtDivSucc _ _ hpos
    have h2 : bi + input * (DEC - p.fee.atomics) / DEC ≤ fi := by
      rw [hfieq]
      exact Nat.add_le_add_left (mulDivDecLe input p.fee.atomics) bi
    refine ⟨lt_of_lt_of_le h1 (Nat.mul_le_mul_right _ h2), ?_⟩
    intro habs
    simp [SwapAmount.isOut] at habs
  | Out output =>
    obtain ⟨hfee, hole, hfone, hfne, hble, _, hfieq, hfoeq⟩ := swapCalcOut_ok hcalc
    have hpos : 0 < bo - output := Nat.pos_of_ne_zero hfone
    have hq : bi * bo / (bo - output) - bi ≤
        (bi * bo / (bo - output) - bi) * DEC / (DEC - p.fee.atomics) :=
      leMulDivSub _ _ hfne (Nat.sub_le _ _)
    have hfi2 : bi * bo / (bo - output) + 1 ≤ fi := by
      calc bi * bo / (bo - output) + 1
          = bi + (bi * bo / (bo - output) - bi) + 1 := by
            rw [Nat.add_sub_cancel' hble]
        _ ≤ bi + (bi * bo / (bo - output) - bi) * DEC / (DEC - p.fee.atomics) + 1 :=
            Nat.add_le_add_right (Nat.add_le_add_left hq bi) 1
        _ = fi := by rw [hfieq, Nat.add_assoc]
    have h2 : bi * bo < fi * fo := by
      calc bi * bo < (bo - output) * (bi * bo / (bo - output) + 1) :=
            natLtDivSucc _ _ hpos
        _ = (bi * bo / (bo - output) + 1) * (bo - output) := Nat.mul_comm _ _
        _ ≤ fi * (bo - output) := Nat.mul_le_mul_right _ hfi2
        _ = fi * fo := by rw [hfoeq]
    exact ⟨lt_of_lt_of_le h2 (Nat.mul_le_mul_left fi (Nat.le_succ fo)), fun _ => h2⟩

/-- C1 witness: the amended bound evaluated on the `(997, 2)` pool with a
successful exact-out swap to final balances `(1998, 1)`. -/
theorem swap_product_rounding_bound_witness :
    997 * 2 < 1998 * (1 + 1) ∧
      ((SwapAmount.Out 1).isOut = true → 997 * 2 < 1998 * 1) :=
  swap_product_rounding_bound
    (Pool.mk [⟨"a", 997⟩, ⟨"b", 2⟩] 44 (decPermille 3)) "a" "b" (.Out 1) (.In 1001)
    (Pool.mk [⟨"a", 1998⟩, ⟨"b", 1⟩] 44 (decPermille 3)) 997 2 1998 1
    (by decide) (by decide) (by decide) (by decide) (by decide) (by decide)

/-- C8 counterexample: pool `(3, 1)` without fee: the returned price has
atomics `floor(10^18 / 3) = 333333333333333333`, and `333333333333333333 *
3 ≠ 1 * 10^18`, so the returned `Decimal` is not exactly the rational
`bal_out / bal_in = 1/3`. -/
theorem spot_price_exact_rational_cex :
    Pool.spot_price (Pool.mk [⟨"a", 3⟩, ⟨"b", 1⟩] 1 (decPermille 3)) "a" "b" false =
        .ok ⟨333333333333333333⟩ ∧
      333333333333333333 * 3 ≠ 1 * DEC := by decide

/-- C8 amended: `spot_price` returns the doubly-truncated fixed-point value
whose atomics are `floor(floor(bal_out * mult_atomics / 10^18) * 10^18 /
bal_in)` with `mult_atomics = 10^18 - fee_atomics` when `with_swap_fee` and
`10^18` otherwise (not the exact rational), and fails with `AssetNotInPool`
whenever either denomination is absent. -/
theorem spot_price_truncated_formula :
    (∀ (p : Pool) (di dt : String) (wf : Bool) (bi bo : Nat) (d : Decimal),
      p.get_amount di = some bi → p.get_amount dt = some bo →
      p.spot_price di dt wf = .ok d →
      d.atomics = bo * (if wf then DEC - p.fee.atomics else DEC) / DEC * DEC / bi) ∧
    (∀ (p : Pool) (di dt : String) (wf : Bool),
      (p.get_amount di = none ∨ p.get_amount dt = none) →
      p.spot_price di dt wf = .err .assetNotInPool) := by
  constructor
  · intro p di dt wf bi bo d hbi hbo h
    unfold Pool.spot_price at h
    rw [hbi, hbo] at h
    replace h : (Outcome.bind (if wf then decSub decOne p.fee else .ok decOne) fun mult =>
        Outcome.bind (mulUintDec bo mult) fun num => decFromRatio num bi) = .ok d := h
    obtain ⟨mult, hmult, h⟩ := Outcome.bind_eq_ok h
    obtain ⟨num, hnum, h⟩ := Outcome.bind_eq_ok h
    unfold mulUintDec at hnum
    obtain ⟨rfl, _⟩ := uMulDiv_ok hnum
    unfold decFromRatio at h
    obtain ⟨x, hx, h⟩ := Outcome.bind_eq_ok h
    obtain ⟨rfl, _⟩ := uMulDiv_ok hx
    cases h
    cases wf with
    | true =>
      rw [if_pos rfl] at hmult
      obtain ⟨hm, _⟩ := decSub_ok hmult
      simp only [decOne] at hm
      rw [if_pos rfl]
      show bo * mult.atomics / DEC * DEC / bi = bo * (DEC - p.fee.atomics) / DEC * DEC / bi
      rw [hm]
    | false =>
      rw [if_neg (by simp)] at hmult
      have hmd : mult = decOne := by
        simpa using hmult.symm
      rw [if_neg (by simp), hmd]
      simp [decOne]
  · intro p di dt wf hor
    unfold Pool.spot_price
    rcases hor with h1 | h1
    · rw [h1]
    · cases h2 : p.get_amount di
      · rfl
      · rw [h1]

/-- C8 witness: the amended formula evaluated on the `(3, 1)` pool without
fee, plus the failure on a denomination absent from the pool. -/
theorem spot_price_truncated_formula_witness :
    (Decimal.mk 333333333333333333).atomics =
        1 * (if false then DEC - (decPermille 3).atomics else DEC) / DEC * DEC / 3 ∧
      Pool.spot_price (Pool.mk [⟨"a", 3⟩, ⟨"b", 1⟩] 1 (decPermille 3)) "eth" "b" false =
        .err .assetNotInPool :=
  ⟨spot_price_truncated_formula.1
      (Pool.mk [⟨"a", 3⟩, ⟨"b", 1⟩] 1 (decPermille 3)) "a" "b" false 3 1
      ⟨333333333333333333⟩ (by decide) (by decide) (by decide),
    spot_price_truncated_formula.2
      (Pool.mk [⟨"a", 3⟩, ⟨"b", 1⟩] 1 (decPermille 3)) "eth" "b" false
      (Or.inl (by decide))⟩

/-- C5 counterexample: a route using pool `1` twice (`a→b` then `b→a`, fee
`0`, balances `(100, 100)`, `In 10`).  The route is accepted, but the second
hop is computed from the originally stored pool (yielding payout `10` and
snapshot `(90, 110)`), whereas chaining onto the first hop's snapshot
`(110, 90)` would yield payout `11` and pool `(99, 100)` — so later hops do
not see the prior hop's mutation. -/
theorem duplicate_pool_chaining_cex :
    complex_swap [(1, Pool.mk [⟨"a", 100⟩, ⟨"b", 100⟩] 100 ⟨0⟩)]
        ⟨1, "a", "b"⟩ [⟨1, "a"⟩] (.In 10) =
      .ok (.Out 10, [(1, Pool.mk [⟨"a", 110⟩, ⟨"b", 90⟩] 100 ⟨0⟩),
                     (1, Pool.mk [⟨"a", 90⟩, ⟨"b", 110⟩] 100 ⟨0⟩)]) ∧
    Pool.swap (Pool.mk [⟨"a", 110⟩, ⟨"b", 90⟩] 100 ⟨0⟩) "b" "a" (.In 10) =
      .ok (.Out 11, Pool.mk [⟨"a", 99⟩, ⟨"b", 100⟩] 100 ⟨0⟩) ∧
    Pool.mk [⟨"a", 90⟩, ⟨"b", 110⟩] 100 (⟨0⟩ : Decimal) ≠
      Pool.mk [⟨"a", 99⟩, ⟨"b", 100⟩] 100 ⟨0⟩ ∧
    SwapAmount.Out 10 ≠ SwapAmount.Out 11 := by decide

/-- C5 amended: duplicate pool ids in a route are permitted, but mutations
never chain: for every successful `complex_swap`, in both directions and for
routes of any length, every executed hop's snapshot is the result of swapping
the pool loaded from the original storage (never a prior hop's snapshot), and
the snapshots are collected in traversal order — hop order for exact-in
routes, reverse hop order for exact-out routes. -/
theorem duplicate_pool_no_chaining :
    (∀ (s : PoolStore) (first : Swap) (route : List Step) (input : Nat)
        (res : SwapAmount) (pools : List (Nat × Pool)),
      complex_swap s first route (.In input) = .ok (res, pools) →
      pools.length = (buildSwaps first route).length ∧
      pools.map Prod.fst = (buildSwaps first route).map Swap.pool_id ∧
      ∀ i (hi : i < (buildSwaps first route).length) (hp : i < pools.length),
        ∃ p0 a y p',
          loadPool s ((buildSwaps first route).get ⟨i, hi⟩).pool_id = .ok p0 ∧
          p0.swap ((buildSwaps first route).get ⟨i, hi⟩).denom_in
            ((buildSwaps first route).get ⟨i, hi⟩).denom_out (.In a) =
              .ok (.Out y, p') ∧
          pools.get ⟨i, hp⟩ =
            (((buildSwaps first route).get ⟨i, hi⟩).pool_id, p')) ∧
    (∀ (s : PoolStore) (first : Swap) (route : List Step) (output : Nat)
        (res : SwapAmount) (pools : List (Nat × Pool)),
      complex_swap s first route (.Out output) = .ok (res, pools) →
      pools.length = (buildSwaps first route).reverse.length ∧
      pools.map Prod.fst = (buildSwaps first route).reverse.map Swap.pool_id ∧
      ∀ i (hi : i < (buildSwaps first route).reverse.length) (hp : i < pools.length),
        ∃ p0 a y p',
          loadPool s ((buildSwaps first route).reverse.get ⟨i, hi⟩).pool_id = .ok p0 ∧
          p0.swap ((buildSwaps first route).reverse.get ⟨i, hi⟩).denom_in
            ((buildSwaps first route).reverse.get ⟨i, hi⟩).denom_out (.Out a) =
              .ok (.In y, p') ∧
          pools.get ⟨i, hp⟩ =
            (((buildSwaps first route).reverse.get ⟨i, hi⟩).pool_id, p')) := by
  constructor
  · intro s first route input res pools h
    replace h : Outcome.map (fun r : Nat × List (Nat × Pool) => (SwapAmount.Out r.1, r.2))
        (complexSwapIn s (buildSwaps first route) input []) = .ok (res, pools) := h
    obtain ⟨⟨yfin, ps⟩, hin, heq⟩ := Outcome.map_eq_ok h
    simp only [Prod.mk.injEq] at heq
    obtain ⟨_, hps⟩ := heq
    subst hps
    obtain ⟨mid, hmid, hlen, htrace⟩ :=
      complexSwapIn_trace (buildSwaps first route) input [] yfin ps hin
    simp only [List.nil_append] at hmid
    subst hmid
    refine ⟨hlen, ?_, htrace⟩
    simpa using complexSwapIn_ids (buildSwaps first route) input [] yfin ps hin
  · intro s first route output res pools h
    replace h : Outcome.map (fun r : Nat × List (Nat × Pool) => (SwapAmount.In r.1, r.2))
        (complexSwapOut s (buildSwaps first route).reverse output []) = .ok (res, pools) := h
    obtain ⟨⟨yfin, ps⟩, hin, heq⟩ := Outcome.map_eq_ok h
    simp only [Prod.mk.injEq] at heq
    obtain ⟨_, hps⟩ := heq
    subst hps
    obtain ⟨mid, hmid, hlen, htrace⟩ :=
      complexSwapOut_trace (buildSwaps first route).reverse output [] yfin ps hin
    simp only [List.nil_append] at hmid
    subst hmid
    refine ⟨hlen, ?_, htrace⟩
    simpa using complexSwapOut_ids (buildSwaps first route).reverse output [] yfin ps hin

/-- C5 witness: the amended statement evaluated on the duplicate-pool route
of the counterexample, at the second hop (index 1): its snapshot comes from
swapping the pool loaded from the original storage. -/
theorem duplicate_pool_no_chaining_witness :
    ∃ p0 a y p',
      loadPool [(1, Pool.mk [⟨"a", 100⟩, ⟨"b", 100⟩] 100 ⟨0⟩)]
          ((buildSwaps (Swap.mk 1 "a" "b") [Step.mk 1 "a"]).get ⟨1, by decide⟩).pool_id =
        .ok p0 ∧
      p0.swap ((buildSwaps (Swap.mk 1 "a" "b") [Step.mk 1 "a"]).get ⟨1, by decide⟩).denom_in
          ((buildSwaps (Swap.mk 1 "a" "b") [Step.mk 1 "a"]).get ⟨1, by decide⟩).denom_out
          (.In a) = .ok (.Out y, p') ∧
      ([(1, Pool.mk [⟨"a", 110⟩, ⟨"b", 90⟩] 100 ⟨0⟩),
        (1, Pool.mk [⟨"a", 90⟩, ⟨"b", 110⟩] 100 ⟨0⟩)] : List (Nat × Pool)).get
          ⟨1, by decide⟩ =
        (((buildSwaps (Swap.mk 1 "a" "b") [Step.mk 1 "a"]).get ⟨1, by decide⟩).pool_id, p') :=
  (duplicate_pool_no_chaining.1 [(1, Pool.mk [⟨"a", 100⟩, ⟨"b", 100⟩] 100 ⟨0⟩)]
    (Swap.mk 1 "a" "b") [Step.mk 1 "a"] 10 (.Out 10)
    [(1, Pool.mk [⟨"a", 110⟩, ⟨"b", 90⟩] 100 ⟨0⟩),
      (1, Pool.mk [⟨"a", 90⟩, ⟨"b", 110⟩] 100 ⟨0⟩)] (by decide)).2.2 1
    (by decide) (by decide)

/-- C7: the hop list is the first `Swap` followed by one fully-specified
`Swap` per `Step` (`N = 1 + route.len()` hops): each step's hop carries the
step's `pool_id`/`denom_out`, every hop's `denom_in` equals the previous
hop's `denom_out`, and an exact-in execution touches exactly these pools in
this order. -/
theorem hop_list_construction :
    (∀ (first : Swap) (route : List Step),
      (buildSwaps first route).length = 1 + route.length ∧
      (buildSwaps first route).head? = some first ∧
      (buildSwaps first route).map (fun sw => (sw.pool_id, sw.denom_out)) =
        (first.pool_id, first.denom_out) ::
          (route.map fun st => (st.pool_id, st.denom_out)) ∧
      List.Chain' (fun a b => b.denom_in = a.denom_out) (buildSwaps first route)) ∧
    (∀ (s : PoolStore) (first : Swap) (route : List Step) (x y : Nat)
        (pools : List (Nat × Pool)),
      complex_swap s first route (.In x) = .ok (.Out y, pools) →
      pools.map Prod.fst = (buildSwaps first route).map Swap.pool_id) := by
  constructor
  · intro first route
    refine ⟨?_, rfl, ?_, ?_⟩
    · simp [buildSwaps, routeSwaps_length, Nat.add_comm]
    · simp [buildSwaps, routeSwaps_proj]
    · unfold buildSwaps
      rw [List.chain'_cons']
      exact ⟨fun sw hsw =>
          routeSwaps_head_in route first.denom_out sw (Option.mem_def.mp hsw),
        routeSwaps_chain route first.denom_out⟩
  · intro s first route x y pools h
    replace h : Outcome.map (fun r : Nat × List (Nat × Pool) => (SwapAmount.Out r.1, r.2))
        (complexSwapIn s (buildSwaps first route) x []) = .ok (.Out y, pools) := h
    obtain ⟨⟨y', ps⟩, hin, heq⟩ := Outcome.map_eq_ok h
    simp only [Prod.mk.injEq] at heq
    obtain ⟨_, hps⟩ := heq
    subst hps
    simpa using complexSwapIn_ids (buildSwaps first route) x [] y' ps hin

/-- C7 witness: the execution conjunct evaluated on a one-hop route. -/
theorem hop_list_construction_witness :
    ([(1, Pool.mk [⟨"a", 25⟩, ⟨"b", 16⟩] 20 ⟨0⟩)] : List (Nat × Pool)).map Prod.fst =
      (buildSwaps ⟨1, "a", "b"⟩ []).map Swap.pool_id :=
  hop_list_construction.2 [(1, Pool.mk [⟨"a", 20⟩, ⟨"b", 20⟩] 20 ⟨0⟩)]
    ⟨1, "a", "b"⟩ [] 5 4 [(1, Pool.mk [⟨"a", 25⟩, ⟨"b", 16⟩] 20 ⟨0⟩)] (by decide)

/-- C2: the `Swap` command fails with `PriceTooLow` exactly when routing
succeeds and the routed final amount violates the caller's bound; on any
returned error the storage is unchanged; and on a successful routing with a
respected bound, every collected snapshot is saved (in order) and the routed
amount is answered. -/
theorem swap_msg_slippage_atomicity :
    (∀ (s : PoolStore) (f : Swap) (r : List Step) (al : SwapAmountWithLimit),
      (executeSwapMsg s f r al).2 = .err .priceTooLow ↔
        ∃ res pools, complex_swap s f r al.discard_limit = .ok (res, pools) ∧
          limitViolated al res = true) ∧
    (∀ (s : PoolStore) (f : Swap) (r : List Step) (al : SwapAmountWithLimit)
        (e : OsmosisError),
      (executeSwapMsg s f r al).2 = .err e → (executeSwapMsg s f r al).1 = s) ∧
    (∀ (s : PoolStore) (f : Swap) (r : List Step) (al : SwapAmountWithLimit)
        (res : SwapAmount) (pools : List (Nat × Pool)),
      complex_swap s f r al.discard_limit = .ok (res, pools) →
      limitViolated al res = false →
      executeSwapMsg s f r al = (saveAll s pools, .ok res)) := by
  refine ⟨?_, ?_, ?_⟩
  · intro s f r al
    constructor
    · intro h
      rcases executeSwapMsg_cases s f r al with ⟨e, hcs, hx⟩ | ⟨k, hcs, hx⟩ |
        ⟨res, pools, hcs, ⟨hv, hx⟩ | ⟨hv, hx⟩⟩
      · rw [hx] at h
        simp at h
        subst h
        exact absurd hcs complex_swap_ne_ptl
      · rw [hx] at h
        simp at h
      · exact ⟨res, pools, hcs, hv⟩
      · rw [hx] at h
        simp at h
    · rintro ⟨res, pools, hcs, hv⟩
      rcases executeSwapMsg_cases s f r al with ⟨e, hcs', hx⟩ | ⟨k, hcs', hx⟩ |
        ⟨res', pools', hcs', ⟨hv', hx⟩ | ⟨hv', hx⟩⟩
      · rw [hcs] at hcs'
        simp at hcs'
      · rw [hcs] at hcs'
        simp at hcs'
      · rw [hx]
      · rw [hcs] at hcs'
        simp only [Outcome.ok.injEq, Prod.mk.injEq] at hcs'
        obtain ⟨h1, _⟩ := hcs'
        rw [← h1] at hv'
        rw [hv] at hv'
        cases hv'
  · intro s f r al e h
    rcases executeSwapMsg_cases s f r al with ⟨e', _, hx⟩ | ⟨k, _, hx⟩ |
      ⟨res, pools, _, ⟨_, hx⟩ | ⟨_, hx⟩⟩
    · rw [hx]
    · rw [hx]
    · rw [hx]
    · rw [hx] at h
      simp at h
  · intro s f r al res pools hcs hv
    rcases executeSwapMsg_cases s f r al with ⟨e, hcs', hx⟩ | ⟨k, hcs', hx⟩ |
      ⟨res', pools', hcs', ⟨hv', hx⟩ | ⟨hv', hx⟩⟩
    · rw [hcs] at hcs'
      simp at hcs'
    · rw [hcs] at hcs'
      simp at hcs'
    · rw [hcs] at hcs'
      simp only [Outcome.ok.injEq, Prod.mk.injEq] at hcs'
      obtain ⟨h1, _⟩ := hcs'
      rw [← h1] at hv'
      rw [hv] at hv'
      cases hv'
    · rw [hcs] at hcs'
      simp only [Outcome.ok.injEq, Prod.mk.injEq] at hcs'
      obtain ⟨h1, h2⟩ := hcs'
      rw [hx, h1, h2]

/-- C2 witness: a failing command (missing pool) leaves the storage
unchanged, and a successful command saves the collected snapshot and answers
the routed amount. -/
theorem swap_msg_slippage_atomicity_witness :
    (executeSwapMsg [] ⟨1, "a", "b"⟩ [] (.ExactIn 5 0)).1 = ([] : PoolStore) ∧
      executeSwapMsg [(1, Pool.mk [⟨"a", 20⟩, ⟨"b", 20⟩] 20 ⟨0⟩)]
          ⟨1, "a", "b"⟩ [] (.ExactIn 5 0) =
        (saveAll [(1, Pool.mk [⟨"a", 20⟩, ⟨"b", 20⟩] 20 ⟨0⟩)]
          [(1, Pool.mk [⟨"a", 25⟩, ⟨"b", 16⟩] 20 ⟨0⟩)], .ok (.Out 4)) :=
  ⟨swap_msg_slippage_atomicity.2.1 [] ⟨1, "a", "b"⟩ [] (.ExactIn 5 0)
      (.notFound 1) (by decide),
    swap_msg_slippage_atomicity.2.2 [(1, Pool.mk [⟨"a", 20⟩, ⟨"b", 20⟩] 20 ⟨0⟩)]
      ⟨1, "a", "b"⟩ [] (.ExactIn 5 0) (.Out 4)
      [(1, Pool.mk [⟨"a", 25⟩, ⟨"b", 16⟩] 20 ⟨0⟩)] (by decide) (by decide)⟩

/-- C6: the `EstimateSwap` query computes exactly the routing step of the
`Swap` command (identical math, mutations discarded, no storage returned):
whenever the command succeeds, the query on the original storage returns
the same final amount, and even when the command fails the slippage check
the query still returns the routed amount. -/
theorem estimate_swap_refines_execute :
    (∀ (s : PoolStore) (f : Swap) (r : List Step) (a : SwapAmount),
      queryEstimateSwap s f r a = Outcome.map Prod.fst (complex_swap s f r a)) ∧
    (∀ (s : PoolStore) (f : Swap) (r : List Step) (al : SwapAmountWithLimit)
        (s' : PoolStore) (resp : SwapAmount),
      executeSwapMsg s f r al = (s', .ok resp) →
      queryEstimateSwap s f r al.discard_limit = .ok resp) ∧
    (∀ (s : PoolStore) (f : Swap) (r : List Step) (al : SwapAmountWithLimit),
      (executeSwapMsg s f r al).2 = .err .priceTooLow →
      ∃ x, queryEstimateSwap s f r al.discard_limit = .ok x) := by
  refine ⟨fun s f r a => rfl, ?_, ?_⟩
  · intro s f r al s' resp h
    rcases executeSwapMsg_cases s f r al with ⟨e, hcs, hx⟩ | ⟨k, hcs, hx⟩ |
      ⟨res, pools, hcs, ⟨hv, hx⟩ | ⟨hv, hx⟩⟩
    · rw [hx] at h
      simp at h
    · rw [hx] at h
      simp at h
    · rw [hx] at h
      simp at h
    · rw [hx] at h
      simp only [Prod.mk.injEq, Outcome.ok.injEq] at h
      obtain ⟨_, h2⟩ := h
      unfold queryEstimateSwap
      rw [hcs]
      simp [h2]
  · intro s f r al h
    rcases executeSwapMsg_cases s f r al with ⟨e, hcs, hx⟩ | ⟨k, hcs, hx⟩ |
      ⟨res, pools, hcs, ⟨hv, hx⟩ | ⟨hv, hx⟩⟩
    · rw [hx] at h
      simp at h
      subst h
      exact absurd hcs complex_swap_ne_ptl
    · rw [hx] at h
      simp at h
    · refine ⟨res, ?_⟩
      unfold queryEstimateSwap
      rw [hcs]
      rfl
    · rw [hx] at h
      simp at h

/-- C6 witness: a successful command and the query returning the same
amount on the original storage. -/
theorem estimate_swap_refines_execute_witness :
    queryEstimateSwap [(1, Pool.mk [⟨"a", 20⟩, ⟨"b", 20⟩] 20 ⟨0⟩)]
      ⟨1, "a", "b"⟩ [] (.In 5) = .ok (.Out 4) :=
  estimate_swap_refines_execute.2.1 [(1, Pool.mk [⟨"a", 20⟩, ⟨"b", 20⟩] 20 ⟨0⟩)]
    ⟨1, "a", "b"⟩ [] (.ExactIn 5 0)
    [(1, Pool.mk [⟨"a", 25⟩, ⟨"b", 16⟩] 20 ⟨0⟩)] (.Out 4) (by decide)

/-! ## Sanity checks: the embedding reproduces the repository's own tests -/

/-- The `estimate_swap` test of multitest.rs: on the `(6M osmo, 1.5M atom)`
pool, `In 501505` atom yields `Out 1500000` osmo, and `Out 1500000` osmo
requires `In 501505` atom. -/
theorem model_matches_estimate_swap_test :
    complex_swap
        [(43, Pool.mk [⟨"osmo", 6000000⟩, ⟨"atom", 1500000⟩] 3000000 (decPermille 3))]
        ⟨43, "atom", "osmo"⟩ [] (.In 501505) =
      .ok (.Out 1500000,
        [(43, Pool.mk [⟨"osmo", 4500000⟩, ⟨"atom", 2001505⟩] 3000000 (decPermille 3))]) ∧
    complex_swap
        [(43, Pool.mk [⟨"osmo", 6000000⟩, ⟨"atom", 1500000⟩] 3000000 (decPermille 3))]
        ⟨43, "atom", "osmo"⟩ [] (.Out 1500000) =
      .ok (.In 501505,
        [(43, Pool.mk [⟨"osmo", 4500000⟩, ⟨"atom", 2001505⟩] 3000000 (decPermille 3))]) := by
  decide

/-- The `perform_swap_with_route_exact_out` and
`swap_with_route_max_input_exceeded` tests: the two-pool route pays `4033`
osmo for `1000` btc (moving `2009` atom) and fails with `PriceTooLow` when
`max_input = 4000`. -/
theorem model_matches_route_exact_out_test :
    executeSwapMsg
        [(1, Pool.mk [⟨"osmo", 6000000⟩, ⟨"atom", 3000000⟩] 4242640 (decPermille 3)),
          (2, Pool.mk [⟨"atom", 2000000⟩, ⟨"btc", 1000000⟩] 1414213 (decPermille 3))]
        ⟨1, "osmo", "atom"⟩ [⟨2, "btc"⟩] (.ExactOut 1000 5000) =
      ([(1, Pool.mk [⟨"osmo", 6004033⟩, ⟨"atom", 2997991⟩] 4242640 (decPermille 3)),
          (2, Pool.mk [⟨"atom", 2002009⟩, ⟨"btc", 999000⟩] 1414213 (decPermille 3))],
        .ok (.In 4033)) ∧
    executeSwapMsg
        [(1, Pool.mk [⟨"osmo", 6000000⟩, ⟨"atom", 3000000⟩] 4242640 (decPermille 3)),
          (2, Pool.mk [⟨"atom", 2000000⟩, ⟨"btc", 1000000⟩] 1414213 (decPermille 3))]
        ⟨1, "osmo", "atom"⟩ [⟨2, "btc"⟩] (.ExactOut 1000 4000) =
      ([(1, Pool.mk [⟨"osmo", 6000000⟩, ⟨"atom", 3000000⟩] 4242640 (decPermille 3)),
          (2, Pool.mk [⟨"atom", 2000000⟩, ⟨"btc", 1000000⟩] 1414213 (decPermille 3))],
        .err .priceTooLow) := by
  decide

/-- The `query_pool` spot-price assertions: `0.25`, `4.00`, and with fee
`4.00 * 0.997 = 3.988`. -/
theorem model_matches_spot_price_test :
    Pool.spot_price
        (Pool.mk [⟨"osmo", 6000000⟩, ⟨"atom", 1500000⟩] 3000000 (decPermille 3))
        "osmo" "atom" false = .ok ⟨250000000000000000⟩ ∧
    Pool.spot_price
        (Pool.mk [⟨"osmo", 6000000⟩, ⟨"atom", 1500000⟩] 3000000 (decPermille 3))
        "atom" "osmo" false = .ok ⟨4000000000000000000⟩ ∧
    Pool.spot_price
        (Pool.mk [⟨"osmo", 6000000⟩, ⟨"atom", 1500000⟩] 3000000 (decPermille 3))
        "atom" "osmo" true = .ok ⟨3988000000000000000⟩ := by
  decide

end OsmoBindings
